import Mathlib

/-!
Verification of the schema-lifecycle core of the data-architecture repository.

The Lean definitions below are a shallow embedding of the Python sources:

  src/data-architecture/core/schema_manager.py       (SchemaManager and helpers)
  src/data-architecture/metadata/metadata_manager.py (search scoring)

Conventions used throughout the embedding:

* Python strings are Lean String values; Python `sub in s` (substring test)
  is pySubstr, `s.lower()` and `s.upper()` are pyLower and pyUpper
  (the whitelists and identifiers involved are ASCII, where the Lean
  Char.toLower and Char.toUpper functions agree with Python).
* Python dicts keyed by strings are association lists with Python dict
  semantics: an insert of an existing key overwrites in place, a new key is
  appended (pyDictPut); iteration order is insertion order.
* Python sets that are only used for membership tests (field_names in
  validate_schema) are lists; set.add is modelled by appending, which has
  the same membership semantics.
* datetimes are opaque strings supplied by the caller (the clock is an
  external collaborator); floats that only ever take small integral values
  (search scores: 10.0, 5.0, 3.0, 2.0, 1.0 and their sums) are Nat.
* Functions written with a leading underscore in Python
  (_detect_breaking_changes, _generate_migration, _is_valid_data_type,
  _generate_schema_hash, _calculate_search_score, _matches_filters,
  _generate_snippet) lose the underscore here, as Lean names cannot start
  with one.
* The filesystem store of the SchemaManager (one JSON document per schema
  name under definitions/, versions/, migrations/, governance/) is a
  ManagerState record of association lists keyed exactly as the files are.
-/

/-! ## Python string primitives -/

/-- Python substring test: sub in s. -/
def pySubstr (sub s : String) : Bool := decide (sub.data <:+: s.data)

/-- Python s.lower() (ASCII-faithful). -/
def pyLower (s : String) : String := String.mk (s.data.map Char.toLower)

/-- Python s.upper() (ASCII-faithful). -/
def pyUpper (s : String) : String := String.mk (s.data.map Char.toUpper)

/-- Python truthiness of an Optional[str]: None and the empty string are falsy. -/
def pyTruthyStr : Option String → Bool
  | none => false
  | some s => !(s == "")

/-- Python x or d for an Optional[str] x: d when x is None or empty. -/
def pyOrStr (x : Option String) (d : String) : String :=
  match x with
  | none => d
  | some s => if s == "" then d else s

/-! ## Data model (schema_manager.py dataclasses)

SchemaField.default_value has Python type Any; only its presence and JSON
image matter here, so it is an Option String. validation_rules and metadata
are free-form string maps. The dataclass __post_init__ hooks replace None
by empty lists/dicts for indexes, relationships, tags, validation_rules and
metadata, so those fields are plain lists here. -/

inductive SchemaType where
  | RELATIONAL
  | DOCUMENT
  | KEY_VALUE
  | GRAPH
  | TIME_SERIES
  | COLUMNAR
deriving DecidableEq

inductive DataClassification where
  | PUBLIC
  | INTERNAL
  | CONFIDENTIAL
  | RESTRICTED
  | PII
  | PHI
deriving DecidableEq

structure SchemaField where
  name : String
  data_type : String
  nullable : Bool := true
  primary_key : Bool := false
  foreign_key : Option String := none
  unique : Bool := false
  indexed : Bool := false
  default_value : Option String := none
  description : Option String := none
  classification : DataClassification := DataClassification.INTERNAL
  validation_rules : List (String × String) := []
  tags : List String := []
deriving DecidableEq

structure SchemaIndex where
  name : String
  fields : List String
  unique : Bool := false
  type : String := "btree"
  partial_condition : Option String := none
  description : Option String := none
deriving DecidableEq

structure SchemaRelationship where
  name : String
  source_schema : String
  target_schema : String
  source_field : String
  target_field : String
  relationship_type : String
  cascade_delete : Bool := false
  cascade_update : Bool := false
deriving DecidableEq

structure SchemaVersion where
  version : String
  created_at : String
  created_by : String
  description : String
  changes : List String
  breaking_changes : Bool := false
  rollback_version : Option String := none
  approved_by : Option String := none
  deployment_date : Option String := none
deriving DecidableEq

structure Schema where
  name : String
  version : String
  schema_type : SchemaType
  description : String
  fields : List SchemaField
  indexes : List SchemaIndex := []
  relationships : List SchemaRelationship := []
  business_owner : Option String := none
  technical_owner : Option String := none
  classification : DataClassification := DataClassification.INTERNAL
  retention_policy : Option String := none
  backup_policy : Option String := none
  tags : List String := []
  metadata : List (String × String) := []
deriving DecidableEq

/-! ## Python dict on string keys -/

/-- Python dict assignment d[k] = v on an insertion-ordered association
list: overwrite in place if the key exists, else append. -/
def pyDictPut {α : Type} (m : List (String × α)) (k : String) (v : α) : List (String × α) :=
  if (m.lookup k).isSome then
    m.map (fun p => if p.1 == k then (k, v) else p)
  else
    m ++ [(k, v)]

/-- The dict comprehension building name-indexed fields:
old_fields = \x7bf.name: f for f in schema.fields\x7d. -/
def fieldsDict (fs : List SchemaField) : List (String × SchemaField) :=
  fs.foldl (fun m f => pyDictPut m f.name f) []

/-! ## _is_valid_data_type -/

/-- The fixed whitelist table valid_types of _is_valid_data_type; a schema
type outside the five listed keys (GRAPH) gets the dict .get default []. -/
def valid_types : SchemaType → List String
  | SchemaType.RELATIONAL =>
      ["INTEGER", "BIGINT", "SMALLINT", "DECIMAL", "NUMERIC", "REAL", "DOUBLE",
       "VARCHAR", "CHAR", "TEXT", "BOOLEAN", "DATE", "TIME", "TIMESTAMP",
       "UUID", "JSON", "JSONB", "ARRAY"]
  | SchemaType.DOCUMENT =>
      ["STRING", "NUMBER", "BOOLEAN", "DATE", "OBJECT", "ARRAY", "NULL"]
  | SchemaType.KEY_VALUE =>
      ["STRING", "HASH", "LIST", "SET", "SORTED_SET", "BITMAP", "HYPERLOGLOG"]
  | SchemaType.TIME_SERIES =>
      ["TIMESTAMP", "DOUBLE", "INTEGER", "STRING", "BOOLEAN", "TAG"]
  | SchemaType.COLUMNAR =>
      ["INT32", "INT64", "FLOAT", "DOUBLE", "STRING", "BOOLEAN", "DATE", "TIMESTAMP"]
  | SchemaType.GRAPH => []

/-- SchemaManager._is_valid_data_type: data_type.upper() in
valid_types.get(schema_type, []). -/
def is_valid_data_type (data_type : String) (schema_type : SchemaType) : Bool :=
  (valid_types schema_type).contains (pyUpper data_type)

/-! ## validate_schema -/

structure FieldLoopState where
  field_names : List String
  primary_keys : List String
  errors : List String
deriving DecidableEq

/-- The per-field loop of validate_schema. A field with an empty name gets
the missing-name error and is skipped entirely (the Python continue); other
fields are checked for duplicate names (before being added to the name
set), recorded as primary keys, and checked against the type whitelist. -/
def validateFields (schema_type : SchemaType) : List SchemaField → FieldLoopState → FieldLoopState
  | [], st => st
  | f :: rest, st =>
    if f.name = "" then
      validateFields schema_type rest
        { st with errors := st.errors ++ ["All fields must have a name"] }
    else
      let errs1 := if f.name ∈ st.field_names
        then st.errors ++ ["Duplicate field name: " ++ f.name] else st.errors
      let names1 := st.field_names ++ [f.name]
      let pks1 := if f.primary_key then st.primary_keys ++ [f.name] else st.primary_keys
      let errs2 := if !(is_valid_data_type f.data_type schema_type)
        then errs1 ++ ["Invalid data type " ++ f.data_type ++ " for field " ++ f.name]
        else errs1
      validateFields schema_type rest
        { field_names := names1, primary_keys := pks1, errors := errs2 }

structure ValidationResult where
  valid : Bool
  errors : List String
  warnings : List String
deriving DecidableEq

/-- SchemaManager.validate_schema. All checks run (no short-circuiting);
valid is the emptiness of the collected error list. -/
def validate_schema (schema : Schema) : ValidationResult :=
  let errors0 :=
    (if schema.name = "" then ["Schema name is required"] else []) ++
    (if schema.fields = [] then ["Schema must have at least one field"] else [])
  let st := validateFields schema.schema_type schema.fields
    { field_names := [], primary_keys := [], errors := errors0 }
  let warnings0 :=
    (if schema.schema_type = SchemaType.RELATIONAL ∧ st.primary_keys = []
      then ["Relational schema should have a primary key"] else []) ++
    (if st.primary_keys.length > 1
      then ["Multiple primary keys detected, consider composite key design"] else [])
  let indexErrors := schema.indexes.flatMap (fun idx =>
    idx.fields.filterMap (fun fn =>
      if fn ∉ st.field_names
        then some ("Index " ++ idx.name ++ " references non-existent field: " ++ fn)
        else none))
  let relErrors := schema.relationships.filterMap (fun rel =>
    if rel.source_field ∉ st.field_names
      then some ("Relationship " ++ rel.name ++ " references non-existent source field: "
                  ++ rel.source_field)
      else none)
  let sensWarnings :=
    if (schema.fields.any (fun f =>
          f.classification == DataClassification.PII
          || f.classification == DataClassification.PHI))
        && !(pyTruthyStr schema.retention_policy)
      then ["Schema contains sensitive data but no retention policy defined"] else []
  let errors := st.errors ++ indexErrors ++ relErrors
  { valid := errors.isEmpty, errors := errors, warnings := warnings0 ++ sensWarnings }

/-! ## _detect_breaking_changes -/

/-- The removed-fields pass of _detect_breaking_changes: one entry per
old-schema field name absent from the new schema. -/
def remEntry (new_fields : List (String × SchemaField)) (p : String × SchemaField) :
    List String :=
  if (new_fields.lookup p.1).isSome then [] else ["Removed field: " ++ p.1]

/-- The common-fields pass of _detect_breaking_changes: for a field present
in both schemas, up to three entries, in source order (type change,
nullable tightened, promoted to primary key). -/
def chgEntries (new_fields : List (String × SchemaField)) (p : String × SchemaField) :
    List String :=
  match new_fields.lookup p.1 with
  | none => []
  | some nf =>
    (if p.2.data_type ≠ nf.data_type
      then ["Changed data type for field " ++ p.1 ++ ": "
             ++ p.2.data_type ++ " -> " ++ nf.data_type] else []) ++
    (if p.2.nullable && !nf.nullable
      then ["Field " ++ p.1 ++ " changed from nullable to non-nullable"] else []) ++
    (if !p.2.primary_key && nf.primary_key
      then ["Field " ++ p.1 ++ " changed to primary key"] else [])

/-- SchemaManager._detect_breaking_changes: the removed-field entries (one
loop over the old field dict) followed by the changed-field entries (a
second loop over the old field dict). -/
def detect_breaking_changes (old_schema new_schema : Schema) : List String :=
  let old_fields := fieldsDict old_schema.fields
  let new_fields := fieldsDict new_schema.fields
  old_fields.flatMap (remEntry new_fields) ++ old_fields.flatMap (chgEntries new_fields)

example :
    detect_breaking_changes
      { name := "orders", version := "1", schema_type := SchemaType.RELATIONAL,
        description := "d",
        fields := [{ name := "amount", data_type := "DECIMAL", nullable := true }] }
      { name := "orders", version := "2", schema_type := SchemaType.RELATIONAL,
        description := "d",
        fields := [{ name := "amount", data_type := "DECIMAL", nullable := false }] }
    = ["Field amount changed from nullable to non-nullable"] := by decide

/-! ## Python str.split

Python s.split(sep) for a non-empty sep cuts s at every non-overlapping
occurrence of sep, scanning left to right and keeping empty pieces.
splitFirst finds the first occurrence and returns the pieces before and
after it; pySplit iterates, with the input length as fuel (each cut
consumes at least sep.length ≥ 1 characters, so the fuel never runs out). -/

/-- First occurrence of sep in l: the part before it and the part after. -/
def splitFirst (sep : List Char) : List Char → Option (List Char × List Char)
  | [] => if sep.isPrefixOf [] then some ([], ([] : List Char).drop sep.length) else none
  | c :: rest =>
    if sep.isPrefixOf (c :: rest) then some ([], (c :: rest).drop sep.length)
    else (splitFirst sep rest).map (fun p => (c :: p.1, p.2))

def pySplitAux (sep : List Char) : Nat → List Char → List (List Char)
  | 0, l => [l]
  | fuel + 1, l =>
    match splitFirst sep l with
    | none => [l]
    | some (b, a) => b :: pySplitAux sep fuel a

/-- Python s.split(sep), on character lists (sep non-empty in all uses;
Python raises ValueError on an empty sep, modelled as no split). -/
def pySplit (sep l : List Char) : List (List Char) :=
  if sep.isEmpty then [l] else pySplitAux sep l.length l

/-- Python s.split(sep)[i] on strings. Python raises IndexError when the
index is out of range; every use below is in a branch where the index
exists, and the out-of-range default is the empty string. -/
def pySplitGet (s sep : String) (i : Nat) : String :=
  String.mk ((pySplit sep.data s.data).getD i [])

/-! ## _generate_migration -/

/-- The body of the per-change loop of _generate_migration: the comment
line for the change, then the SQL statement reconstructed from the change
text by substring tests and token positions exactly as in the source
(change.split(": ")[1], change.split(" ")[5], change.split(" -> ")[1]). -/
def perChange (schema_name : String) (change : String) : List String :=
  ["-- " ++ change] ++
  (if pySubstr "Removed field" change then
    ["ALTER TABLE " ++ schema_name ++ " DROP COLUMN " ++ pySplitGet change ": " 1 ++ ";"]
  else if pySubstr "Changed data type" change then
    ["ALTER TABLE " ++ schema_name ++ " ALTER COLUMN " ++ pySplitGet change " " 5
      ++ " TYPE " ++ pySplitGet change " -> " 1 ++ ";"]
  else [])

/-- SchemaManager._generate_migration: the text of the migration artifact
written for (schema_name, version), as a list of lines. The generated-at
timestamp is the caller-supplied clock value now. -/
def generate_migration (schema_name : String) (old_schema new_schema : Schema)
    (version : SchemaVersion) (now : String) : List String :=
  ["-- Migration for " ++ schema_name ++ " to version " ++ version.version,
   "-- Generated at: " ++ now,
   "-- Description: " ++ version.description,
   ""] ++
  (detect_breaking_changes old_schema new_schema).flatMap (perChange schema_name) ++
  ["", "-- End of migration"]

example :
    pySplit " ".data "Changed data type for field amount: DECIMAL -> VARCHAR".data
    = ["Changed".data, "data".data, "type".data, "for".data, "field".data,
       "amount:".data, "DECIMAL".data, "->".data, "VARCHAR".data] := by decide

example :
    perChange "orders" "Changed data type for field amount: DECIMAL -> VARCHAR"
    = ["-- Changed data type for field amount: DECIMAL -> VARCHAR",
       "ALTER TABLE orders ALTER COLUMN amount: TYPE VARCHAR;"] := by decide

example :
    perChange "orders" "Removed field: amount"
    = ["-- Removed field: amount",
       "ALTER TABLE orders DROP COLUMN amount;"] := by decide

/-! ## SHA-256 (hashlib.sha256, pure-Nat model)

Machine words are Nat reduced mod 2^32; bytes are Nat below 256; the
digest is the usual lowercase-hex string. -/

def w32 (n : Nat) : Nat := n % 4294967296

def rotr32 (n x : Nat) : Nat := w32 ((x >>> n) ||| (x <<< (32 - n)))

def shaSmall0 (x : Nat) : Nat := w32 (rotr32 7 x ^^^ rotr32 18 x ^^^ (x >>> 3))

def shaSmall1 (x : Nat) : Nat := w32 (rotr32 17 x ^^^ rotr32 19 x ^^^ (x >>> 10))

def shaBig0 (x : Nat) : Nat := w32 (rotr32 2 x ^^^ rotr32 13 x ^^^ rotr32 22 x)

def shaBig1 (x : Nat) : Nat := w32 (rotr32 6 x ^^^ rotr32 11 x ^^^ rotr32 25 x)

def shaK : List Nat :=
  [1116352408, 1899447441, 3049323471, 3921009573, 961987163, 1508970993,
   2453635748, 2870763221, 3624381080, 310598401, 607225278, 1426881987,
   1925078388, 2162078206, 2614888103, 3248222580, 3835390401, 4022224774,
   264347078, 604807628, 770255983, 1249150122, 1555081692, 1996064986,
   2554220882, 2821834349, 2952996808, 3210313671, 3336571891, 3584528711,
   113926993, 338241895, 666307205, 773529912, 1294757372, 1396182291,
   1695183700, 1986661051, 2177026350, 2456956037, 2730485921, 2820302411,
   3259730800, 3345764771, 3516065817, 3600352804, 4094571909, 275423344,
   430227734, 506948616, 659060556, 883997877, 958139571, 1322822218,
   1537002063, 1747873779, 1955562222, 2024104815, 2227730452, 2361852424,
   2428436474, 2756734187, 3204031479, 3329325298]

def shaH0 : List Nat :=
  [1779033703, 3144134277, 1013904242, 2773480762,
   1359893119, 2600822924, 528734635, 1541459225]

/-- Big-endian 32-bit words from a byte stream. -/
def shaWords : List Nat → List Nat
  | b0 :: b1 :: b2 :: b3 :: rest =>
      (b0 * 16777216 + b1 * 65536 + b2 * 256 + b3) :: shaWords rest
  | _ => []

/-- Extend the 16 chunk words by the given number of schedule rounds. -/
def shaExtend (ws : List Nat) : Nat → List Nat
  | 0 => ws
  | r + 1 =>
    let n := ws.length
    shaExtend
      (ws ++ [w32 (shaSmall1 (ws.getD (n - 2) 0) + ws.getD (n - 7) 0
                    + shaSmall0 (ws.getD (n - 15) 0) + ws.getD (n - 16) 0)]) r

/-- One compression round; the state is the list [a, b, c, d, e, f, g, h]. -/
def shaRound (st : List Nat) (kw : Nat × Nat) : List Nat :=
  let a := st.getD 0 0
  let b := st.getD 1 0
  let c := st.getD 2 0
  let d := st.getD 3 0
  let e := st.getD 4 0
  let f := st.getD 5 0
  let g := st.getD 6 0
  let h := st.getD 7 0
  let ch := w32 ((e &&& f) ^^^ ((4294967295 ^^^ e) &&& g))
  let t1 := w32 (h + shaBig1 e + ch + kw.1 + kw.2)
  let maj := w32 ((a &&& b) ^^^ (a &&& c) ^^^ (b &&& c))
  let t2 := w32 (shaBig0 a + maj)
  [w32 (t1 + t2), a, b, c, w32 (d + t1), e, f, g]

/-- Process one 64-byte chunk into the running hash state. -/
def shaChunk (h : List Nat) (chunk : List Nat) : List Nat :=
  let ws := shaExtend (shaWords chunk) 48
  let fin := (shaK.zip ws).foldl shaRound h
  (h.zip fin).map (fun p => w32 (p.1 + p.2))

/-- Split the padded message into 64-byte chunks (the input length is the
fuel; every step consumes 64 ≥ 1 bytes, so it never runs out). -/
def shaChunks : Nat → List Nat → List (List Nat)
  | _, [] => []
  | 0, l => [l]
  | fuel + 1, l => l.take 64 :: shaChunks fuel (l.drop 64)

/-- SHA-256 padding: 0x80, zeros to 56 mod 64, the bit length big-endian. -/
def shaPad (msg : List Nat) : List Nat :=
  let len := msg.length
  let z := (64 + 55 - (len % 64)) % 64
  let bl := 8 * len
  msg ++ [128] ++ List.replicate z 0 ++
    [(bl >>> 56) % 256, (bl >>> 48) % 256, (bl >>> 40) % 256, (bl >>> 32) % 256,
     (bl >>> 24) % 256, (bl >>> 16) % 256, (bl >>> 8) % 256, bl % 256]

def hexChar (n : Nat) : Char :=
  if n < 10 then Char.ofNat (48 + n) else Char.ofNat (87 + n)

/-- hashlib.sha256(bytes).hexdigest(). -/
def sha256hex (msg : List Nat) : String :=
  let hs := (shaChunks (shaPad msg).length (shaPad msg)).foldl shaChunk shaH0
  let bytes := hs.flatMap (fun w => [(w >>> 24) % 256, (w >>> 16) % 256, (w >>> 8) % 256, w % 256])
  String.mk (bytes.flatMap (fun b => [hexChar (b / 16), hexChar (b % 16)]))

/-! ## json.dumps(..., sort_keys=True, default=str) for a Schema dict

Static dataclass keys are emitted directly in their sorted order; the
dynamic validation_rules dict is key-sorted with a stable insertion sort
(Python sorted is stable; equal keys cannot occur in a dict). Enum values
hit the default=str hook: str(SchemaType.RELATIONAL) and the like.
Non-ASCII characters use the ensure_ascii \\uXXXX form (characters beyond
the basic multilingual plane, which Python encodes as surrogate pairs, do
not occur in this repository's data and keep a single \\uXXXX here). -/

def jescapeChar (c : Char) : List Char :=
  if c = '"' then ['\\', '"']
  else if c = '\\' then ['\\', '\\']
  else if c = '\n' then ['\\', 'n']
  else if c = '\t' then ['\\', 't']
  else if c = '\r' then ['\\', 'r']
  else if c = Char.ofNat 8 then ['\\', 'b']
  else if c = Char.ofNat 12 then ['\\', 'f']
  else if c.toNat < 32 || c.toNat > 126 then
    ['\\', 'u', hexChar ((c.toNat >>> 12) % 16), hexChar ((c.toNat >>> 8) % 16),
     hexChar ((c.toNat >>> 4) % 16), hexChar (c.toNat % 16)]
  else [c]

def jsonStr (s : String) : String :=
  String.mk ('"' :: s.data.flatMap jescapeChar ++ ['"'])

def jsonOptStr : Option String → String
  | none => "null"
  | some s => jsonStr s

def jsonBool : Bool → String
  | true => "true"
  | false => "false"

def jsonList (items : List String) : String :=
  "[" ++ String.intercalate ", " items ++ "]"

def jsonObj (kvs : List (String × String)) : String :=
  "\x7b" ++ String.intercalate ", " (kvs.map (fun p => jsonStr p.1 ++ ": " ++ p.2)) ++ "\x7d"

/-- Strict code-point lexicographic order on strings (the order Python
sorted uses on str keys). -/
def lexLtChars : List Char → List Char → Bool
  | [], [] => false
  | [], _ :: _ => true
  | _ :: _, [] => false
  | a :: as, b :: bs => if a < b then true else if b < a then false else lexLtChars as bs

def insertKV (x : String × String) : List (String × String) → List (String × String)
  | [] => [x]
  | y :: rest => if lexLtChars y.1.data x.1.data then y :: insertKV x rest else x :: y :: rest

/-- Python sorted(d.items()) for a string-keyed dict. -/
def pySortKVs (l : List (String × String)) : List (String × String) :=
  l.foldr insertKV []

def pyStrOfSchemaType : SchemaType → String
  | SchemaType.RELATIONAL => "SchemaType.RELATIONAL"
  | SchemaType.DOCUMENT => "SchemaType.DOCUMENT"
  | SchemaType.KEY_VALUE => "SchemaType.KEY_VALUE"
  | SchemaType.GRAPH => "SchemaType.GRAPH"
  | SchemaType.TIME_SERIES => "SchemaType.TIME_SERIES"
  | SchemaType.COLUMNAR => "SchemaType.COLUMNAR"

def pyStrOfClassification : DataClassification → String
  | DataClassification.PUBLIC => "DataClassification.PUBLIC"
  | DataClassification.INTERNAL => "DataClassification.INTERNAL"
  | DataClassification.CONFIDENTIAL => "DataClassification.CONFIDENTIAL"
  | DataClassification.RESTRICTED => "DataClassification.RESTRICTED"
  | DataClassification.PII => "DataClassification.PII"
  | DataClassification.PHI => "DataClassification.PHI"

def jsonOfStrMap (m : List (String × String)) : String :=
  jsonObj ((pySortKVs m).map (fun p => (p.1, jsonStr p.2)))

def jsonOfField (f : SchemaField) : String :=
  jsonObj
    [("classification", jsonStr (pyStrOfClassification f.classification)),
     ("data_type", jsonStr f.data_type),
     ("default_value", jsonOptStr f.default_value),
     ("description", jsonOptStr f.description),
     ("foreign_key", jsonOptStr f.foreign_key),
     ("indexed", jsonBool f.indexed),
     ("name", jsonStr f.name),
     ("nullable", jsonBool f.nullable),
     ("primary_key", jsonBool f.primary_key),
     ("tags", jsonList (f.tags.map jsonStr)),
     ("unique", jsonBool f.unique),
     ("validation_rules", jsonOfStrMap f.validation_rules)]

def jsonOfIndex (i : SchemaIndex) : String :=
  jsonObj
    [("description", jsonOptStr i.description),
     ("fields", jsonList (i.fields.map jsonStr)),
     ("name", jsonStr i.name),
     ("partial_condition", jsonOptStr i.partial_condition),
     ("type", jsonStr i.type),
     ("unique", jsonBool i.unique)]

def jsonOfRelationship (r : SchemaRelationship) : String :=
  jsonObj
    [("cascade_delete", jsonBool r.cascade_delete),
     ("cascade_update", jsonBool r.cascade_update),
     ("name", jsonStr r.name),
     ("relationship_type", jsonStr r.relationship_type),
     ("source_field", jsonStr r.source_field),
     ("source_schema", jsonStr r.source_schema),
     ("target_field", jsonStr r.target_field),
     ("target_schema", jsonStr r.target_schema)]

/-- The normalized representation hashed by _generate_schema_hash:
json.dumps of asdict(schema) with the metadata key popped, all remaining
keys in sorted order. -/
def jsonOfSchemaNoMetadata (s : Schema) : String :=
  jsonObj
    [("backup_policy", jsonOptStr s.backup_policy),
     ("business_owner", jsonOptStr s.business_owner),
     ("classification", jsonStr (pyStrOfClassification s.classification)),
     ("description", jsonStr s.description),
     ("fields", jsonList (s.fields.map jsonOfField)),
     ("indexes", jsonList (s.indexes.map jsonOfIndex)),
     ("name", jsonStr s.name),
     ("relationships", jsonList (s.relationships.map jsonOfRelationship)),
     ("retention_policy", jsonOptStr s.retention_policy),
     ("schema_type", jsonStr (pyStrOfSchemaType s.schema_type)),
     ("tags", jsonList (s.tags.map jsonStr)),
     ("technical_owner", jsonOptStr s.technical_owner),
     ("version", jsonStr s.version)]

/-- SchemaManager._generate_schema_hash: sha256 of the utf-8 bytes of the
normalized json (the json is pure ASCII under ensure_ascii, so the utf-8
encoding is the code-point bytes). -/
def generate_schema_hash (schema : Schema) : String :=
  sha256hex ((jsonOfSchemaNoMetadata schema).data.map Char.toNat)

/-! ## SchemaManager persistent state and lifecycle operations

The store is the filesystem tree under base_path: one document per schema
name in each of definitions/, versions/, governance/, and one migration
artifact per (schema, version) in migrations/. Each directory is an
association list keyed the way the files are named. The definitions entry
keeps the document content that matters to the claims: the schema and the
schema_hash written alongside it. -/

structure GovernanceRecord where
  schema_name : String
  business_owner : Option String
  technical_owner : Option String
  classification : DataClassification
  retention_policy : Option String
  backup_policy : Option String
  compliance_requirements : List String
  created_at : String
deriving DecidableEq

structure ManagerState where
  definitions : List (String × (Schema × String)) := []
  versions : List (String × List SchemaVersion) := []
  migrations : List (String × List String) := []
  governance : List (String × GovernanceRecord) := []
deriving DecidableEq

/-- SchemaManager.schema_exists: the definitions document for the name
is present. -/
def schema_exists (st : ManagerState) (schema_name : String) : Bool :=
  (st.definitions.lookup schema_name).isSome

/-- SchemaManager.get_schema: load the definitions document back into a
Schema (the stored hash and timestamps are not part of the Schema). -/
def get_schema (st : ManagerState) (schema_name : String) : Option Schema :=
  (st.definitions.lookup schema_name).map (fun p => p.1)

/-- SchemaManager._save_version: read the existing version list (empty if
the file is absent) and append the new record. -/
def save_version (vs : List (String × List SchemaVersion)) (schema_name : String)
    (version : SchemaVersion) : List (String × List SchemaVersion) :=
  pyDictPut vs schema_name (((vs.lookup schema_name).getD []) ++ [version])

/-- SchemaManager._create_governance_record: compliance requirements are
seeded from field classifications (any PII or PHI adds GDPR and
privacy_by_design; any PHI adds HIPAA). -/
def create_governance_record (schema : Schema) (now : String) : GovernanceRecord :=
  let sensitive := schema.fields.filter (fun f =>
    f.classification == DataClassification.PII || f.classification == DataClassification.PHI)
  { schema_name := schema.name,
    business_owner := schema.business_owner,
    technical_owner := schema.technical_owner,
    classification := schema.classification,
    retention_policy := schema.retention_policy,
    backup_policy := schema.backup_policy,
    compliance_requirements :=
      if !sensitive.isEmpty then
        ["GDPR", "privacy_by_design"] ++
          (if sensitive.any (fun f => f.classification == DataClassification.PHI)
            then ["HIPAA"] else [])
      else [],
    created_at := now }

/-- SchemaManager.create_schema: validation, conflict check, then the
definition document (schema plus hash), the initial version record and the
governance record are written; the result is the returned bool paired with
the store state after the call. -/
def create_schema (st : ManagerState) (schema : Schema) (now : String) :
    Bool × ManagerState :=
  if !(validate_schema schema).valid then (false, st)
  else if schema_exists st schema.name then (false, st)
  else
    let schema_hash := generate_schema_hash schema
    let version : SchemaVersion :=
      { version := schema.version,
        created_at := now,
        created_by := pyOrStr schema.technical_owner "system",
        description := "Initial schema creation: " ++ schema.description,
        changes := ["Initial schema creation"] }
    (true,
      { st with
        definitions := pyDictPut st.definitions schema.name (schema, schema_hash),
        versions := save_version st.versions schema.name version,
        governance := pyDictPut st.governance schema.name
          (create_governance_record schema now) })

/-- SchemaManager.update_schema: existence check, load of the current
schema, validation of the new one; then the breaking_changes flag of the
version record is set from the detector, the definition document is
overwritten, the version record appended, and a migration artifact named
schema_version_migration is written exactly when breaking changes were
detected. The returned bool is true whether or not the change list was
empty. -/
def update_schema (st : ManagerState) (schema : Schema) (version_info : SchemaVersion)
    (now : String) : Bool × ManagerState :=
  if !(schema_exists st schema.name) then (false, st)
  else
    match get_schema st schema.name with
    | none => (false, st)
    | some current_schema =>
      if !(validate_schema schema).valid then (false, st)
      else
        let breaking_changes := detect_breaking_changes current_schema schema
        let vinfo := { version_info with breaking_changes := decide (0 < breaking_changes.length) }
        let schema_hash := generate_schema_hash schema
        let st1 :=
          { st with
            definitions := pyDictPut st.definitions schema.name (schema, schema_hash),
            versions := save_version st.versions schema.name vinfo }
        let st2 :=
          if vinfo.breaking_changes then
            { st1 with migrations :=
                (pyDictPut st1.migrations
                  (schema.name ++ "_" ++ vinfo.version ++ "_migration")
                  (generate_migration schema.name current_schema schema vinfo now)) }
          else st1
        (true, st2)

/-! ## Metadata catalog search (metadata_manager.py)

DataResource is modelled with the fields the search path reads. A
MetadataAttribute value has Python type Any and is scored through
str(value).lower(), so it is a String here (str is the identity on it).
Scores are Nat: the Python floats involved are 10.0, 5.0, 3.0, 2.0, 1.0
and sums of a subset of them, all exactly representable. -/

inductive ResourceType where
  | TABLE | VIEW | COLUMN | INDEX | SCHEMA | DATABASE
  | FILE | API | QUERY | REPORT | DASHBOARD | TRANSFORMATION
deriving DecidableEq

/-- The .value string of a ResourceType enum member. -/
def ResourceType.value : ResourceType → String
  | TABLE => "table"
  | VIEW => "view"
  | COLUMN => "column"
  | INDEX => "index"
  | SCHEMA => "schema"
  | DATABASE => "database"
  | FILE => "file"
  | API => "api"
  | QUERY => "query"
  | REPORT => "report"
  | DASHBOARD => "dashboard"
  | TRANSFORMATION => "transformation"

structure MetadataAttribute where
  name : String
  value : String
  type : String
  description : Option String := none
  source : Option String := none
  tags : List String := []
deriving DecidableEq

structure DataResource where
  resource_id : String
  name : String
  type : ResourceType
  system : String
  path : Option String := none
  description : Option String := none
  owner : Option String := none
  steward : Option String := none
  schema_version : Option String := none
  metadata : List (String × MetadataAttribute) := []
  tags : List String := []
deriving DecidableEq

structure SearchResult where
  resource : DataResource
  score : Nat
  matching_fields : List String
  snippet : Option String := none
deriving DecidableEq

/-- MetadataManager._calculate_search_score: additive weights over
case-insensitive substring matches; the tag and metadata loops break at
the first match. -/
def calculate_search_score (resource : DataResource) (query : String) :
    Nat × List String :=
  let query_lower := pyLower query
  let s1 : Nat × List String :=
    if pySubstr query_lower (pyLower resource.name)
      then (10, ["name"]) else (0, [])
  let s2 :=
    if pyTruthyStr resource.description
        && pySubstr query_lower (pyLower ((resource.description).getD ""))
      then (s1.1 + 5, s1.2 ++ ["description"]) else s1
  let s3 :=
    if resource.tags.any (fun t => pySubstr query_lower (pyLower t))
      then (s2.1 + 3, s2.2 ++ ["tags"]) else s2
  let s4 :=
    match resource.metadata.find? (fun p => pySubstr query_lower (pyLower p.2.value)) with
    | some p => (s3.1 + 2, s3.2 ++ ["metadata." ++ p.1])
    | none => s3
  if pySubstr query_lower (pyLower resource.system)
    then (s4.1 + 1, s4.2 ++ ["system"]) else s4

/-- The filters dict of search_resources: only the keys type, system,
owner, tags are consulted; a key that is absent from the dict imposes no
constraint. -/
structure SearchFilters where
  type : Option String := none
  system : Option String := none
  owner : Option String := none
  tags : Option String := none
deriving DecidableEq

/-- MetadataManager._matches_filters. -/
def matches_filters (resource : DataResource) (filters : SearchFilters) : Bool :=
  (match filters.type with
    | none => true
    | some v => resource.type.value == v) &&
  (match filters.system with
    | none => true
    | some v => resource.system == v) &&
  (match filters.owner with
    | none => true
    | some v => resource.owner == some v) &&
  (match filters.tags with
    | none => true
    | some v => !resource.tags.isEmpty && resource.tags.contains v)

/-- MetadataManager._generate_snippet. -/
def generate_snippet (resource : DataResource) : String :=
  match resource.description with
  | some d =>
    if d ≠ "" then
      (if d.length > 200 then String.mk (d.data.take 200) ++ "..." else d)
    else resource.type.value ++ " in " ++ resource.system
  | none => resource.type.value ++ " in " ++ resource.system

/-- Stable insertion of a result into a list already sorted by descending
score: the new element goes in front of the first element whose score does
not exceed it. -/
def insertByScoreDesc (a : SearchResult) : List SearchResult → List SearchResult
  | [] => [a]
  | b :: rest =>
    if b.score ≤ a.score then a :: b :: rest else b :: insertByScoreDesc a rest

/-- Python results.sort(key=lambda r: r.score, reverse=True): a stable
descending sort by score (stable sorts of a list under the same key are
unique, so insertion sort reproduces list.sort exactly). -/
def sortByScoreDesc (l : List SearchResult) : List SearchResult :=
  l.foldr insertByScoreDesc []

/-- MetadataManager.search_resources over the loaded resource documents:
filter (when a filters dict is given), score, keep strictly positive
scores, sort by score descending, truncate to limit. -/
def search_resources (resources : List DataResource) (query : String)
    (filters : Option SearchFilters) (limit : Nat) : List SearchResult :=
  let results := resources.filterMap (fun resource =>
    if (match filters with
        | none => true
        | some fl => matches_filters resource fl) then
      let sc := calculate_search_score resource query
      if 0 < sc.1 then
        some { resource := resource, score := sc.1, matching_fields := sc.2,
               snippet := some (generate_snippet resource) }
      else none
    else none)
  (sortByScoreDesc results).take limit

/-! ## Identifier discipline

The token-position parsing of _generate_migration re-reads field names and
data types out of the prose change messages; it is well defined only when
those tokens look like identifiers. -/

/-- Nonempty and made of lowercase letters, digits and underscores: the
shape of the identifiers for which the token-position parsing of
_generate_migration is well defined. -/
def goodIdent (s : String) : Bool :=
  !s.data.isEmpty && s.data.all (fun c => c.isLower || c.isDigit || c == '_')

/-- All field names and data types of the schema are goodIdent. -/
def goodSchema (s : Schema) : Bool :=
  s.fields.all (fun f => goodIdent f.name && goodIdent f.data_type)

/-! ## Concrete sample data for witness instantiations -/

def idField : SchemaField :=
  { name := "id", data_type := "INTEGER", nullable := false, primary_key := true }

def amountField : SchemaField :=
  { name := "amount", data_type := "DECIMAL" }

def ordersOld : Schema :=
  { name := "orders", version := "1.0.0", schema_type := SchemaType.RELATIONAL,
    description := "orders", fields := [idField, amountField] }

def ordersRemoved : Schema :=
  { ordersOld with version := "2.0.0", fields := [idField] }

def ordersVarchar : Schema :=
  { ordersOld with
    version := "2.0.0",
    fields := [idField, { amountField with data_type := "VARCHAR" }] }

def sampleVersion : SchemaVersion :=
  { version := "2.0.0", created_at := "T0", created_by := "u",
    description := "d", changes := [] }

def goodOld : Schema :=
  { name := "orders", version := "1.0.0", schema_type := SchemaType.DOCUMENT,
    description := "g",
    fields := [{ name := "amount", data_type := "decimal" },
               { name := "note", data_type := "text" }] }

def goodNew : Schema :=
  { goodOld with
    version := "2.0.0",
    fields := [{ name := "amount", data_type := "varchar" }] }

def relNoPk : Schema :=
  { name := "r", version := "1", schema_type := SchemaType.RELATIONAL,
    description := "r", fields := [{ name := "a", data_type := "TEXT" }] }

def dupIdSchema : Schema :=
  { name := "d", version := "1", schema_type := SchemaType.RELATIONAL,
    description := "d",
    fields := [{ name := "id", data_type := "INTEGER" },
               { name := "id", data_type := "INTEGER" }] }

def graphSchema : Schema :=
  { name := "g", version := "1", schema_type := SchemaType.GRAPH,
    description := "g", fields := [{ name := "a", data_type := "STRING" }] }

def emptyNamesSchema : Schema :=
  { name := "e", version := "1", schema_type := SchemaType.RELATIONAL,
    description := "e",
    fields := [{ name := "", data_type := "WHAT" }, { name := "", data_type := "EVER" }] }

def emptyState : ManagerState := {}

def stateWithOrders : ManagerState :=
  { definitions := [("orders", (ordersOld, "h"))] }

def userOrdersResource : DataResource :=
  { resource_id := "1", name := "user_orders", type := ResourceType.TABLE,
    system := "db", description := some "Customer order history" }

def taggedResource : DataResource :=
  { resource_id := "2", name := "x", type := ResourceType.TABLE,
    system := "db", tags := ["orders"] }

/-! ## Helper lemmas: string append -/

theorem str_append_right_inj (s t₁ t₂ : String) : s ++ t₁ = s ++ t₂ ↔ t₁ = t₂ := by
  constructor
  · intro h
    apply String.ext
    have h2 := congrArg String.data h
    rw [String.data_append, String.data_append] at h2
    exact List.append_cancel_left h2
  · intro h; rw [h]

theorem str_append_left_inj (t s₁ s₂ : String) : s₁ ++ t = s₂ ++ t ↔ s₁ = s₂ := by
  constructor
  · intro h
    apply String.ext
    have h2 := congrArg String.data h
    rw [String.data_append, String.data_append] at h2
    exact (List.append_left_inj _).mp h2
  · intro h; rw [h]

theorem str_ne_of_data_head {a b : String} (h : a.data.head? ≠ b.data.head?) : a ≠ b :=
  fun he => h (he ▸ rfl)

theorem str_head_ne {a b : String} (x y : String) {c d : Char}
    (hc : a.data.head? = some c) (hd : b.data.head? = some d) (hcd : c ≠ d) :
    a ++ x ≠ b ++ y := by
  intro h
  have h2 := congrArg (fun s => s.data.head?) h
  simp only [String.data_append, List.head?_append, hc, hd] at h2
  simp [Option.or] at h2
  exact hcd h2

theorem str_mk_data (s : String) : String.mk s.data = s := by
  cases s; rfl

/-! ## Helper lemmas: Python dicts -/

theorem pyDictPut_mem {α : Type} (m : List (String × α)) (k : String) (v : α) :
    ∀ p ∈ pyDictPut m k v, p ∈ m ∨ p = (k, v) := by
  intro p hp
  unfold pyDictPut at hp
  split at hp
  · rcases List.mem_map.mp hp with ⟨q, hq, he⟩
    by_cases hqk : (q.1 == k) = true
    · rw [if_pos hqk] at he; right; exact he.symm
    · rw [if_neg hqk] at he; left; exact he ▸ hq
  · rcases List.mem_append.mp hp with h | h
    · left; exact h
    · right; simpa using h

theorem pyDictPut_keys {α : Type} (m : List (String × α)) (k : String) (v : α) :
    (pyDictPut m k v).map Prod.fst =
      if (m.lookup k).isSome then m.map Prod.fst else m.map Prod.fst ++ [k] := by
  unfold pyDictPut
  split
  · rw [List.map_map]
    apply List.map_congr_left
    intro p _
    by_cases hpk : (p.1 == k) = true
    · simp only [Function.comp, if_pos hpk]
      exact (beq_iff_eq.mp hpk).symm
    · simp only [Function.comp, if_neg hpk]
  · rw [List.map_append]
    rfl

theorem lookup_isSome_iff_mem_keys {α : Type} (m : List (String × α)) (k : String) :
    (m.lookup k).isSome = true ↔ k ∈ m.map Prod.fst := by
  induction m with
  | nil => simp
  | cons a m ih =>
    rcases a with ⟨a1, a2⟩
    by_cases h : (k == a1) = true
    · simp [List.lookup, h, beq_iff_eq.mp h]
    · simp only [List.lookup, h, List.map_cons, List.mem_cons]
      rw [ih]
      constructor
      · intro hm; right; exact hm
      · intro hm
        rcases hm with hm | hm
        · exact absurd (beq_iff_eq.mpr hm) (by simpa using h)
        · exact hm

theorem fieldsDict_mem_aux (fs : List SchemaField) :
    ∀ (m : List (String × SchemaField)) p,
      p ∈ fs.foldl (fun m f => pyDictPut m f.name f) m →
      p ∈ m ∨ (p.1 = p.2.name ∧ p.2 ∈ fs) := by
  induction fs with
  | nil => intro m p hp; left; exact hp
  | cons f rest ih =>
    intro m p hp
    rcases ih (pyDictPut m f.name f) p hp with h | h
    · rcases pyDictPut_mem m f.name f p h with h2 | h2
      · left; exact h2
      · right
        constructor
        · rw [h2]
        · rw [h2]; exact List.mem_cons_self _ _
    · right; exact ⟨h.1, List.mem_cons_of_mem _ h.2⟩

theorem fieldsDict_mem {fs : List SchemaField} {p : String × SchemaField}
    (hp : p ∈ fieldsDict fs) : p.1 = p.2.name ∧ p.2 ∈ fs := by
  rcases fieldsDict_mem_aux fs [] p hp with h | h
  · cases h
  · exact h

theorem fieldsDict_keys_nodup_aux (fs : List SchemaField) :
    ∀ (m : List (String × SchemaField)), (m.map Prod.fst).Nodup →
      ((fs.foldl (fun m f => pyDictPut m f.name f) m).map Prod.fst).Nodup := by
  induction fs with
  | nil => intro m hm; exact hm
  | cons f rest ih =>
    intro m hm
    apply ih
    rw [pyDictPut_keys]
    split
    · exact hm
    · rw [List.nodup_append]
      refine ⟨hm, List.nodup_singleton _, ?_⟩
      intro x hx hx2
      have hx3 : x = f.name := by simpa using hx2
      have : (m.lookup f.name).isSome = true :=
        (lookup_isSome_iff_mem_keys m f.name).mpr (hx3 ▸ hx)
      simp_all

theorem fieldsDict_keys_nodup (fs : List SchemaField) :
    ((fieldsDict fs).map Prod.fst).Nodup :=
  fieldsDict_keys_nodup_aux fs [] (by simp)

theorem fieldsDict_eq_map_aux (fs : List SchemaField) :
    ∀ (m : List (String × SchemaField)),
      (∀ f ∈ fs, m.lookup f.name = none) →
      (fs.map SchemaField.name).Nodup →
      fs.foldl (fun m f => pyDictPut m f.name f) m = m ++ fs.map (fun f => (f.name, f)) := by
  induction fs with
  | nil => intro m _ _; simp
  | cons f rest ih =>
    intro m hm hnd
    have hput : pyDictPut m f.name f = m ++ [(f.name, f)] := by
      unfold pyDictPut
      rw [hm f (List.mem_cons_self _ _)]
      rfl
    simp only [List.foldl_cons, hput]
    rw [ih (m ++ [(f.name, f)]) ?_ (by simpa using hnd.of_cons)]
    · simp
    · intro g hg
      rw [List.lookup_append, hm g (List.mem_cons_of_mem _ hg)]
      have hne : (g.name == f.name) = false := by
        apply beq_eq_false_iff_ne.mpr
        intro he
        have : f.name ∈ rest.map SchemaField.name := List.mem_map.mpr ⟨g, hg, he⟩
        exact (List.nodup_cons.mp hnd).1 this
      simp [List.lookup, hne, Option.or]

theorem fieldsDict_eq_map {fs : List SchemaField} (h : (fs.map SchemaField.name).Nodup) :
    fieldsDict fs = fs.map (fun f => (f.name, f)) := by
  unfold fieldsDict
  rw [fieldsDict_eq_map_aux fs [] (fun f _ => List.lookup_nil) h]
  simp

/-! ## Helper lemmas: lookups over name-keyed field lists -/

theorem lookup_map_self {L : List SchemaField} (hnd : (L.map SchemaField.name).Nodup)
    {g : SchemaField} (hg : g ∈ L) :
    (L.map (fun f => (f.name, f))).lookup g.name = some g := by
  induction L with
  | nil => cases hg
  | cons f rest ih =>
    rcases List.mem_cons.mp hg with h | h
    · subst h
      simp [List.lookup]
    · have hne : (g.name == f.name) = false := by
        apply beq_eq_false_iff_ne.mpr
        intro he
        have : f.name ∈ rest.map SchemaField.name := List.mem_map.mpr ⟨g, h, he⟩
        exact (List.nodup_cons.mp hnd).1 this
      simp only [List.map_cons, List.lookup, hne]
      exact ih (List.nodup_cons.mp hnd).2 h

theorem lookup_map_none {L : List SchemaField} {n : String}
    (hn : n ∉ L.map SchemaField.name) :
    (L.map (fun f => (f.name, f))).lookup n = none := by
  induction L with
  | nil => rfl
  | cons f rest ih =>
    have hne : (n == f.name) = false := by
      apply beq_eq_false_iff_ne.mpr
      intro he
      exact hn (by simp [he])
    simp only [List.map_cons, List.lookup, hne]
    exact ih (fun h => hn (by simp [h]))

/-! ## Helper lemmas: shape of the detector output -/

/-- Every entry of _detect_breaking_changes arises from an old-schema field
in one of the four source shapes. -/
theorem detect_mem_shapes {old_schema new_schema : Schema} {c : String}
    (hc : c ∈ detect_breaking_changes old_schema new_schema) :
    ∃ p ∈ fieldsDict old_schema.fields,
      ((fieldsDict new_schema.fields).lookup p.1 = none ∧
        c = "Removed field: " ++ p.1)
      ∨ (∃ nf, (fieldsDict new_schema.fields).lookup p.1 = some nf ∧
          ((p.2.data_type ≠ nf.data_type ∧
             c = "Changed data type for field " ++ p.1 ++ ": "
                  ++ p.2.data_type ++ " -> " ++ nf.data_type)
           ∨ (p.2.nullable = true ∧ nf.nullable = false ∧
               c = "Field " ++ p.1 ++ " changed from nullable to non-nullable")
           ∨ (p.2.primary_key = false ∧ nf.primary_key = true ∧
               c = "Field " ++ p.1 ++ " changed to primary key"))) := by
  unfold detect_breaking_changes at hc
  rcases List.mem_append.mp hc with h | h
  · rcases List.mem_flatMap.mp h with ⟨p, hp, hcp⟩
    refine ⟨p, hp, ?_⟩
    unfold remEntry at hcp
    split at hcp
    · cases hcp
    · left
      refine ⟨Option.not_isSome_iff_eq_none.mp (by assumption), ?_⟩
      simpa using hcp
  · rcases List.mem_flatMap.mp h with ⟨p, hp, hcp⟩
    refine ⟨p, hp, ?_⟩
    unfold chgEntries at hcp
    split at hcp
    · cases hcp
    · right
      rename_i nf heq
      refine ⟨nf, heq, ?_⟩
      rcases List.mem_append.mp hcp with h2 | h2
      · rcases List.mem_append.mp h2 with h3 | h3
        · left
          split at h3
          · exact ⟨by assumption, by simpa using h3⟩
          · cases h3
        · right; left
          split at h3
          · rename_i hcond
            rw [Bool.and_eq_true, Bool.not_eq_true'] at hcond
            exact ⟨hcond.1, hcond.2, by simpa using h3⟩
          · cases h3
      · right; right
        split at h2
        · rename_i hcond
          rw [Bool.and_eq_true, Bool.not_eq_true'] at hcond
          exact ⟨hcond.1, hcond.2, by simpa using h2⟩
        · cases h2

/-- A field compared against itself produces no changed-field entries. -/
theorem chgEntries_self {newd : List (String × SchemaField)} {p : String × SchemaField}
    (h : newd.lookup p.1 = some p.2) : chgEntries newd p = [] := by
  unfold chgEntries
  rw [h]
  simp [Bool.and_not_self, Bool.not_and_self]

/-! ## Identifier discipline for migration-script reasoning -/

theorem goodIdent_not_mem {s : String} (hs : goodIdent s = true) {c : Char}
    (hc : c.isLower = false) (hd : c.isDigit = false) (hu : c ≠ '_') : c ∉ s.data := by
  intro hm
  unfold goodIdent at hs
  rw [Bool.and_eq_true, List.all_eq_true] at hs
  have h := hs.2 c hm
  simp only [Bool.or_eq_true, beq_iff_eq] at h
  rcases h with (h | h) | h
  · rw [hc] at h; cases h
  · rw [hd] at h; cases h
  · exact hu h

theorem goodSchema_field {s : Schema} (hs : goodSchema s = true) {f : SchemaField}
    (hf : f ∈ s.fields) : goodIdent f.name = true ∧ goodIdent f.data_type = true := by
  unfold goodSchema at hs
  rw [List.all_eq_true] at hs
  have := hs f hf
  rwa [Bool.and_eq_true] at this

/-! ## Helper lemmas: substring tests -/

theorem pySubstr_eq_false_of_not_mem {sub s : String} {c : Char}
    (hc : c ∈ sub.data) (hs : c ∉ s.data) : pySubstr sub s = false := by
  unfold pySubstr
  apply decide_eq_false
  intro h
  exact hs (h.subset hc)

theorem pySubstr_eq_true_of_prefix {sub s : String} (h : ∃ t, s.data = sub.data ++ t) :
    pySubstr sub s = true := by
  rcases h with ⟨t, ht⟩
  unfold pySubstr
  apply decide_eq_true
  exact ⟨[], t, by simp [ht]⟩

/-! ## Helper lemmas: pySplit -/

theorem splitFirst_some_shorter {sep : List Char} (hsep : sep ≠ []) :
    ∀ {l b a}, splitFirst sep l = some (b, a) → a.length < l.length := by
  intro l
  induction l with
  | nil =>
    intro b a h
    unfold splitFirst at h
    rcases sep with _ | ⟨c, sep'⟩
    · cases hsep rfl
    · rw [show (if (c :: sep').isPrefixOf ([] : List Char) then
          some (([] : List Char), ([] : List Char).drop (c :: sep').length) else none) = none
          from rfl] at h
      cases h
  | cons x rest ih =>
    intro b a h
    unfold splitFirst at h
    split at h
    · rcases sep with _ | ⟨c, sep'⟩
      · cases hsep rfl
      · have he : a = (x :: rest).drop (c :: sep').length := by
          have := (Option.some.injEq _ _).mp h
          exact (congrArg Prod.snd this).symm
        rw [he]
        simp only [List.length_drop, List.length_cons]
        omega
    · rcases ho : splitFirst sep rest with _ | ⟨q1, q2⟩
      · rw [ho] at h; cases h
      · rw [ho] at h
        have h2 : (some (x :: q1, q2) : Option (List Char × List Char)) = some (b, a) := h
        have he : a = q2 := by
          have := (Option.some.injEq _ _).mp h2
          exact (congrArg Prod.snd this).symm
        have := ih ho
        rw [he]
        simp only [List.length_cons]
        omega

theorem pySplitAux_fuel {sep : List Char} (hsep : sep ≠ []) :
    ∀ (fuel₁ fuel₂ : Nat) (l : List Char), l.length ≤ fuel₁ → l.length ≤ fuel₂ →
      pySplitAux sep fuel₁ l = pySplitAux sep fuel₂ l := by
  intro fuel₁
  induction fuel₁ with
  | zero =>
    intro fuel₂ l h1 _
    have hl : l = [] := List.length_eq_zero.mp (Nat.le_zero.mp h1)
    subst hl
    have hnone : splitFirst sep [] = none := by
      unfold splitFirst
      rcases sep with _ | ⟨c, sep'⟩
      · cases hsep rfl
      · simp [List.isPrefixOf]
    cases fuel₂ with
    | zero => rfl
    | succ m => simp [pySplitAux, hnone]
  | succ n ih =>
    intro fuel₂ l h1 h2
    cases fuel₂ with
    | zero =>
      have hl : l = [] := List.length_eq_zero.mp (Nat.le_zero.mp h2)
      subst hl
      have hnone : splitFirst sep [] = none := by
        unfold splitFirst
        rcases sep with _ | ⟨c, sep'⟩
        · cases hsep rfl
        · simp [List.isPrefixOf]
      simp [pySplitAux, hnone]
    | succ m =>
      rcases ho : splitFirst sep l with _ | ⟨b, a⟩
      · simp [pySplitAux, ho]
      · have hlt := splitFirst_some_shorter hsep ho
        simp only [pySplitAux, ho]
        rw [ih m a (by omega) (by omega)]

theorem pySplit_eq_cons {sep : List Char} (hsep : sep ≠ []) {l b a : List Char}
    (h : splitFirst sep l = some (b, a)) : pySplit sep l = b :: pySplit sep a := by
  have hlt := splitFirst_some_shorter hsep h
  unfold pySplit
  rw [if_neg (by simp [List.isEmpty_iff, hsep]), if_neg (by simp [List.isEmpty_iff, hsep])]
  rcases hn : l.length with _ | k
  · omega
  · simp only [pySplitAux, h]
    rw [pySplitAux_fuel hsep k a.length a (by omega) (by omega)]

theorem pySplit_eq_single {sep l : List Char} (h : splitFirst sep l = none) :
    pySplit sep l = [l] := by
  unfold pySplit
  split
  · rfl
  · rcases hn : l.length with _ | k
    · rfl
    · simp [pySplitAux, h]

theorem splitFirst_head_append {c : Char} {sep' x y : List Char} (hx : c ∉ x) :
    splitFirst (c :: sep') (x ++ (c :: sep') ++ y) = some (x, y) := by
  induction x with
  | nil =>
    simp only [List.nil_append, List.cons_append]
    have hpre : (c :: sep').isPrefixOf (c :: (sep' ++ y)) = true := by
      apply List.isPrefixOf_iff_prefix.mpr
      rw [← List.cons_append]
      exact List.prefix_append _ _
    have hdrop : ((c : Char) :: (sep' ++ y)).drop (c :: sep').length = y := by
      rw [← List.cons_append, List.drop_left]
    simp [splitFirst, hpre, hdrop]
  | cons a x ih =>
    have hca : (c == a) = false := by
      apply beq_eq_false_iff_ne.mpr
      intro he
      exact hx (he ▸ List.mem_cons_self _ _)
    have hnp : (c :: sep').isPrefixOf (a :: (x ++ (c :: sep') ++ y)) = false := by
      simp [List.isPrefixOf, hca]
    simp only [List.cons_append]
    unfold splitFirst
    rw [hnp]
    simp only [Bool.false_eq_true, if_false]
    rw [ih (fun h => hx (List.mem_cons_of_mem _ h))]
    rfl

theorem splitFirst_head_none {c : Char} {sep' l : List Char} (hl : c ∉ l) :
    splitFirst (c :: sep') l = none := by
  induction l with
  | nil => rfl
  | cons a rest ih =>
    have hca : (c == a) = false := by
      apply beq_eq_false_iff_ne.mpr
      intro he
      exact hl (he ▸ List.mem_cons_self _ _)
    unfold splitFirst
    rw [show ((c :: sep').isPrefixOf (a :: rest)) = false by simp [List.isPrefixOf, hca]]
    simp only [Bool.false_eq_true, if_false]
    rw [ih (fun h => hl (List.mem_cons_of_mem _ h))]
    rfl

theorem pySplit_head_append {c : Char} {s x y : List Char} (hx : c ∉ x) :
    pySplit (c :: s) (x ++ (c :: s) ++ y) = x :: pySplit (c :: s) y :=
  pySplit_eq_cons (by simp) (splitFirst_head_append hx)

theorem pySplit_head_none {c : Char} {sep' l : List Char} (hl : c ∉ l) :
    pySplit (c :: sep') l = [l] :=
  pySplit_eq_single (splitFirst_head_none hl)

theorem pySplit_space_tok {t rest : List Char} (ht : ' ' ∉ t) :
    pySplit [' '] (t ++ ' ' :: rest) = t :: pySplit [' '] rest := by
  have := pySplit_head_append (c := ' ') (s := []) (x := t) (y := rest) ht
  simpa using this

theorem splitFirst_arrow_some {x y : List Char} (hx : '-' ∉ x) :
    splitFirst [' ', '-', '>', ' '] (x ++ [' ', '-', '>', ' '] ++ y) = some (x, y) := by
  induction x with
  | nil =>
    simp only [List.nil_append, List.cons_append]
    have hpre : ([' ', '-', '>', ' '] : List Char).isPrefixOf
        (' ' :: '-' :: '>' :: ' ' :: y) = true := by
      simp [List.isPrefixOf]
    have hdrop : (' ' :: '-' :: '>' :: ' ' :: y).drop ([' ', '-', '>', ' '] : List Char).length
        = y := rfl
    simp [splitFirst, hpre, hdrop]
  | cons a x ih =>
    have hnp : ([' ', '-', '>', ' '] : List Char).isPrefixOf
        (a :: (x ++ [' ', '-', '>', ' '] ++ y)) = false := by
      by_cases ha : (' ' == a) = true
      · rcases x with _ | ⟨b, xs⟩
        · simp [List.isPrefixOf]
        · have hb : ('-' == b) = false := by
            apply beq_eq_false_iff_ne.mpr
            intro he
            exact hx (by rw [← he]; exact List.mem_cons_of_mem _ (List.mem_cons_self _ _))
          simp [List.isPrefixOf, hb]
      · simp [List.isPrefixOf, ha]
    simp only [List.cons_append]
    unfold splitFirst
    rw [hnp]
    simp only [Bool.false_eq_true, if_false]
    rw [ih (fun h => hx (List.mem_cons_of_mem _ h))]
    rfl

theorem splitFirst_arrow_none {l : List Char} (hl : '-' ∉ l) :
    splitFirst [' ', '-', '>', ' '] l = none := by
  induction l with
  | nil => rfl
  | cons a rest ih =>
    have hnp : ([' ', '-', '>', ' '] : List Char).isPrefixOf (a :: rest) = false := by
      by_cases ha : (' ' == a) = true
      · rcases rest with _ | ⟨b, bs⟩
        · simp [List.isPrefixOf]
        · have hb : ('-' == b) = false := by
            apply beq_eq_false_iff_ne.mpr
            intro he
            exact hl (by rw [← he]; exact List.mem_cons_of_mem _ (List.mem_cons_self _ _))
          simp [List.isPrefixOf, hb]
      · simp [List.isPrefixOf, ha]
    unfold splitFirst
    rw [hnp]
    simp only [Bool.false_eq_true, if_false]
    rw [ih (fun h => hl (List.mem_cons_of_mem _ h))]
    rfl

theorem pySplit_arrow {x y : List Char} (hx : '-' ∉ x) (hy : '-' ∉ y) :
    pySplit [' ', '-', '>', ' '] (x ++ [' ', '-', '>', ' '] ++ y) = [x, y] := by
  rw [pySplit_eq_cons (by simp) (splitFirst_arrow_some hx),
      pySplit_eq_single (splitFirst_arrow_none hy)]

/-! ## Helper lemmas: character absence in concatenations -/

theorem not_mem_str2 {c : Char} {a b : String} (ha : c ∉ a.data) (hb : c ∉ b.data) :
    c ∉ (a ++ b).data := by
  intro h
  rcases List.mem_append.mp (by rwa [String.data_append] at h) with h | h
  · exact ha h
  · exact hb h

theorem goodIdent_no_space {f : String} (hf : goodIdent f = true) : ' ' ∉ f.data :=
  goodIdent_not_mem hf (by decide) (by decide) (by decide)

theorem goodIdent_no_colon {f : String} (hf : goodIdent f = true) : ':' ∉ f.data :=
  goodIdent_not_mem hf (by decide) (by decide) (by decide)

theorem goodIdent_no_dash {f : String} (hf : goodIdent f = true) : '-' ∉ f.data :=
  goodIdent_not_mem hf (by decide) (by decide) (by decide)

theorem goodIdent_no_R {f : String} (hf : goodIdent f = true) : 'R' ∉ f.data :=
  goodIdent_not_mem hf (by decide) (by decide) (by decide)

theorem goodIdent_no_C {f : String} (hf : goodIdent f = true) : 'C' ∉ f.data :=
  goodIdent_not_mem hf (by decide) (by decide) (by decide)

/-! ## Helper lemmas: perChange on the four detector message shapes -/

theorem perChange_removed (n X : String) (hX : ':' ∉ X.data) :
    perChange n ("Removed field: " ++ X) =
      ["-- " ++ ("Removed field: " ++ X),
       "ALTER TABLE " ++ n ++ " DROP COLUMN " ++ X ++ ";"] := by
  have hdata : ("Removed field: " ++ X).data =
      "Removed field".data ++ [':', ' '] ++ X.data := by
    rw [String.data_append,
        show ("Removed field: " : String).data = "Removed field".data ++ [':', ' '] from by decide]
  have hsub : pySubstr "Removed field" ("Removed field: " ++ X) = true := by
    apply pySubstr_eq_true_of_prefix
    exact ⟨[':', ' '] ++ X.data, by rw [hdata, List.append_assoc]⟩
  have hsplit : pySplit [':', ' '] ("Removed field: " ++ X).data =
      ["Removed field".data, X.data] := by
    rw [hdata]
    rw [pySplit_head_append (c := ':') (s := [' ']) (by decide)]
    rw [pySplit_head_none hX]
  unfold perChange
  rw [hsub]
  simp only [if_true]
  unfold pySplitGet
  rw [show (": " : String).data = [':', ' '] from by decide]
  rw [hsplit]
  simp only [List.getD]
  rw [show (["Removed field".data, X.data].get? 1).getD [] = X.data from rfl]
  rw [str_mk_data]
  rfl

theorem dtype_msg_data (f A B : String) :
    ("Changed data type for field " ++ f ++ ": " ++ A ++ " -> " ++ B).data =
      "Changed".data ++ ' ' :: ("data".data ++ ' ' :: ("type".data ++ ' ' ::
        ("for".data ++ ' ' :: ("field".data ++ ' ' :: ((f.data ++ [':']) ++ ' ' ::
          (A.data ++ ' ' :: ("->".data ++ ' ' :: B.data))))))) := by
  simp only [String.data_append]
  simp [List.append_assoc, List.cons_append]

theorem perChange_dtype (n f A B : String) (hf : goodIdent f = true)
    (hA : goodIdent A = true) (hB : goodIdent B = true) :
    perChange n ("Changed data type for field " ++ f ++ ": " ++ A ++ " -> " ++ B) =
      ["-- " ++ ("Changed data type for field " ++ f ++ ": " ++ A ++ " -> " ++ B),
       "ALTER TABLE " ++ n ++ " ALTER COLUMN " ++ (f ++ ":") ++ " TYPE " ++ B ++ ";"] := by
  have hR : 'R' ∉ ("Changed data type for field " ++ f ++ ": " ++ A ++ " -> " ++ B).data :=
    not_mem_str2 (not_mem_str2 (not_mem_str2 (not_mem_str2
      (by decide) (goodIdent_no_R hf)) (by decide)) (goodIdent_no_R hA)) (by decide)
      |> fun h => not_mem_str2 h (goodIdent_no_R hB)
  have hsubR : pySubstr "Removed field"
      ("Changed data type for field " ++ f ++ ": " ++ A ++ " -> " ++ B) = false :=
    pySubstr_eq_false_of_not_mem (c := 'R') (by decide) hR
  have hsubC : pySubstr "Changed data type"
      ("Changed data type for field " ++ f ++ ": " ++ A ++ " -> " ++ B) = true := by
    apply pySubstr_eq_true_of_prefix
    refine ⟨(" for field " ++ f ++ ": " ++ A ++ " -> " ++ B).data, ?_⟩
    simp [String.data_append]
  have htok : ' ' ∉ f.data ++ [':'] := by
    intro h
    rcases List.mem_append.mp h with h | h
    · exact goodIdent_no_space hf h
    · simp at h
  have hspace : pySplitGet ("Changed data type for field " ++ f ++ ": " ++ A ++ " -> " ++ B)
      " " 5 = f ++ ":" := by
    unfold pySplitGet
    rw [show (" " : String).data = [' '] from by decide, dtype_msg_data]
    rw [pySplit_space_tok (by decide), pySplit_space_tok (by decide),
        pySplit_space_tok (by decide), pySplit_space_tok (by decide),
        pySplit_space_tok (by decide), pySplit_space_tok htok,
        pySplit_space_tok (goodIdent_no_space hA), pySplit_space_tok (by decide),
        pySplit_head_none (goodIdent_no_space hB)]
    apply String.ext
    simp [String.data_append, List.getD]
  have hx : '-' ∉ ("Changed data type for field " ++ f ++ ": " ++ A).data :=
    not_mem_str2 (not_mem_str2 (not_mem_str2
      (by decide) (goodIdent_no_dash hf)) (by decide)) (goodIdent_no_dash hA)
  have harrow : pySplitGet ("Changed data type for field " ++ f ++ ": " ++ A ++ " -> " ++ B)
      " -> " 1 = B := by
    unfold pySplitGet
    rw [show (" -> " : String).data = [' ', '-', '>', ' '] from by decide]
    rw [show ("Changed data type for field " ++ f ++ ": " ++ A ++ " -> " ++ B).data =
        ("Changed data type for field " ++ f ++ ": " ++ A).data ++ [' ', '-', '>', ' ']
          ++ B.data from by simp [String.data_append, List.append_assoc]]
    rw [pySplit_arrow hx (goodIdent_no_dash hB)]
    simp [List.getD, str_mk_data]
  unfold perChange
  rw [hsubR]
  simp only [Bool.false_eq_true, if_false]
  rw [hsubC]
  simp only [if_true]
  rw [hspace, harrow]
  rfl

theorem perChange_nullable (n f : String) (hf : goodIdent f = true) :
    perChange n ("Field " ++ f ++ " changed from nullable to non-nullable") =
      ["-- " ++ ("Field " ++ f ++ " changed from nullable to non-nullable")] := by
  have hR : 'R' ∉ ("Field " ++ f ++ " changed from nullable to non-nullable").data :=
    not_mem_str2 (not_mem_str2 (by decide) (goodIdent_no_R hf)) (by decide)
  have hC : 'C' ∉ ("Field " ++ f ++ " changed from nullable to non-nullable").data :=
    not_mem_str2 (not_mem_str2 (by decide) (goodIdent_no_C hf)) (by decide)
  unfold perChange
  rw [pySubstr_eq_false_of_not_mem (c := 'R') (by decide) hR,
      pySubstr_eq_false_of_not_mem (c := 'C') (by decide) hC]
  simp

theorem perChange_pk (n f : String) (hf : goodIdent f = true) :
    perChange n ("Field " ++ f ++ " changed to primary key") =
      ["-- " ++ ("Field " ++ f ++ " changed to primary key")] := by
  have hR : 'R' ∉ ("Field " ++ f ++ " changed to primary key").data :=
    not_mem_str2 (not_mem_str2 (by decide) (goodIdent_no_R hf)) (by decide)
  have hC : 'C' ∉ ("Field " ++ f ++ " changed to primary key").data :=
    not_mem_str2 (not_mem_str2 (by decide) (goodIdent_no_C hf)) (by decide)
  unfold perChange
  rw [pySubstr_eq_false_of_not_mem (c := 'R') (by decide) hR,
      pySubstr_eq_false_of_not_mem (c := 'C') (by decide) hC]
  simp

/-! ## Helper lemmas: detector on schemas with a single differing field -/

theorem lookup_pair_append_left {l₁ : List SchemaField} {rest : List (String × SchemaField)}
    (hnd : (l₁.map SchemaField.name).Nodup) {g : SchemaField} (hg : g ∈ l₁) :
    ((l₁.map (fun f => (f.name, f))) ++ rest).lookup g.name = some g := by
  rw [List.lookup_append, lookup_map_self hnd hg]
  rfl

theorem lookup_pair_append_skip {l₁ : List SchemaField} {rest : List (String × SchemaField)}
    {n : String} (hn : n ∉ l₁.map SchemaField.name) :
    ((l₁.map (fun f => (f.name, f))) ++ rest).lookup n = rest.lookup n := by
  rw [List.lookup_append, lookup_map_none hn]
  rfl

theorem flatMap_rem_nil {newd : List (String × SchemaField)}
    {l : List (String × SchemaField)}
    (h : ∀ p ∈ l, (newd.lookup p.1).isSome = true) :
    l.flatMap (remEntry newd) = [] := by
  apply List.flatMap_eq_nil_iff.mpr
  intro p hp
  unfold remEntry
  rw [h p hp]
  rfl

theorem flatMap_chg_nil {newd : List (String × SchemaField)}
    {l : List (String × SchemaField)}
    (h : ∀ p ∈ l, newd.lookup p.1 = some p.2) :
    l.flatMap (chgEntries newd) = [] := by
  apply List.flatMap_eq_nil_iff.mpr
  intro p hp
  exact chgEntries_self (h p hp)

/-- The lookup facts for two field lists that agree except at one position
named n. A is the paired form of l₁, B of l₂. -/
theorem detect_single_core (l₁ l₂ : List SchemaField) (f g : SchemaField)
    (hnd : ((l₁ ++ f :: l₂).map SchemaField.name).Nodup) (hgn : g.name = f.name) :
    (∀ p ∈ l₁.map (fun f => (f.name, f)),
      ((l₁.map (fun f => (f.name, f))) ++ (g.name, g) ::
        l₂.map (fun f => (f.name, f))).lookup p.1 = some p.2) ∧
    ((l₁.map (fun f => (f.name, f))) ++ (g.name, g) ::
        l₂.map (fun f => (f.name, f))).lookup f.name = some g ∧
    (∀ p ∈ l₂.map (fun f => (f.name, f)),
      ((l₁.map (fun f => (f.name, f))) ++ (g.name, g) ::
        l₂.map (fun f => (f.name, f))).lookup p.1 = some p.2) := by
  simp only [List.map_append, List.map_cons] at hnd
  rw [List.nodup_append] at hnd
  obtain ⟨hnd1, hnd2, hdisj⟩ := hnd
  have hf_not_l₁ : f.name ∉ l₁.map SchemaField.name := fun h =>
    hdisj h (List.mem_cons_self _ _)
  have hf_not_l₂ : f.name ∉ l₂.map SchemaField.name := (List.nodup_cons.mp hnd2).1
  have hnd2' : (l₂.map SchemaField.name).Nodup := (List.nodup_cons.mp hnd2).2
  refine ⟨?_, ?_, ?_⟩
  · intro p hp
    rcases List.mem_map.mp hp with ⟨q, hq, he⟩
    rw [← he]
    exact lookup_pair_append_left hnd1 hq
  · rw [hgn, lookup_pair_append_skip hf_not_l₁]
    simp [List.lookup]
  · intro p hp
    rcases List.mem_map.mp hp with ⟨q, hq, he⟩
    have hq_mem : q.name ∈ l₂.map SchemaField.name := List.mem_map.mpr ⟨q, hq, rfl⟩
    have hq_not_l₁ : q.name ∉ l₁.map SchemaField.name := fun h =>
      hdisj h (List.mem_cons_of_mem _ hq_mem)
    have hqf : (q.name == g.name) = false := by
      rw [hgn]
      apply beq_eq_false_iff_ne.mpr
      intro he2
      exact hf_not_l₂ (he2 ▸ hq_mem)
    rw [← he, lookup_pair_append_skip hq_not_l₁]
    simp only [List.lookup, hqf]
    exact lookup_map_self hnd2' hq

/-- C1, part 1, in general form: tightening nullable on one field of a
schema with unique field names yields exactly the one nullable entry. -/
theorem detect_single_nullable (s : Schema) (l₁ l₂ : List SchemaField) (f : SchemaField)
    (hnd : ((l₁ ++ f :: l₂).map SchemaField.name).Nodup) (hnul : f.nullable = true) :
    detect_breaking_changes { s with fields := l₁ ++ f :: l₂ }
        { s with fields := l₁ ++ { f with nullable := false } :: l₂ }
      = ["Field " ++ f.name ++ " changed from nullable to non-nullable"] := by
  have hnd' : ((l₁ ++ { f with nullable := false } :: l₂).map SchemaField.name).Nodup := by
    simpa using hnd
  obtain ⟨hF1, hF2, hF3⟩ :=
    detect_single_core l₁ l₂ f { f with nullable := false } hnd rfl
  unfold detect_breaking_changes
  simp only [Schema.fields]
  rw [fieldsDict_eq_map hnd, fieldsDict_eq_map hnd']
  simp only [List.map_append, List.map_cons]
  rw [List.flatMap_append, List.flatMap_append, List.flatMap_cons, List.flatMap_cons]
  rw [flatMap_rem_nil (fun p hp => by rw [hF1 p hp]; rfl),
      flatMap_rem_nil (fun p hp => by rw [hF3 p hp]; rfl),
      flatMap_chg_nil hF1, flatMap_chg_nil hF3]
  have hrem : remEntry ((l₁.map (fun f => (f.name, f))) ++
      ({ f with nullable := false }.name, { f with nullable := false }) ::
        l₂.map (fun f => (f.name, f))) (f.name, f) = [] := by
    unfold remEntry
    rw [show ((f.name : String), f).1 = f.name from rfl, hF2]
    rfl
  have hchg : chgEntries ((l₁.map (fun f => (f.name, f))) ++
      ({ f with nullable := false }.name, { f with nullable := false }) ::
        l₂.map (fun f => (f.name, f))) (f.name, f) =
      ["Field " ++ f.name ++ " changed from nullable to non-nullable"] := by
    unfold chgEntries
    rw [show ((f.name : String), f).1 = f.name from rfl, hF2]
    simp [hnul, Bool.not_and_self]
  rw [hrem, hchg]
  rfl

/-- C1, part 2, in general form: dropping one field of a schema with
unique field names yields exactly the one removed entry. -/
theorem detect_single_removed (s : Schema) (l₁ l₂ : List SchemaField) (f : SchemaField)
    (hnd : ((l₁ ++ f :: l₂).map SchemaField.name).Nodup) :
    detect_breaking_changes { s with fields := l₁ ++ f :: l₂ }
        { s with fields := l₁ ++ l₂ }
      = ["Removed field: " ++ f.name] := by
  simp only [List.map_append, List.map_cons] at hnd
  rw [List.nodup_append] at hnd
  obtain ⟨hnd1, hnd2, hdisj⟩ := hnd
  have hf_not_l₁ : f.name ∉ l₁.map SchemaField.name := fun h =>
    hdisj h (List.mem_cons_self _ _)
  have hf_not_l₂ : f.name ∉ l₂.map SchemaField.name := (List.nodup_cons.mp hnd2).1
  have hnd2' : (l₂.map SchemaField.name).Nodup := (List.nodup_cons.mp hnd2).2
  have hnd_old : ((l₁ ++ f :: l₂).map SchemaField.name).Nodup := by
    simp only [List.map_append, List.map_cons]
    rw [List.nodup_append]
    exact ⟨hnd1, hnd2, hdisj⟩
  have hnd_new : ((l₁ ++ l₂).map SchemaField.name).Nodup := by
    simp only [List.map_append]
    rw [List.nodup_append]
    refine ⟨hnd1, hnd2', ?_⟩
    intro a ha ha2
    exact hdisj ha (List.mem_cons_of_mem _ ha2)
  have hF1 : ∀ p ∈ l₁.map (fun f => (f.name, f)),
      ((l₁.map (fun f => (f.name, f))) ++ l₂.map (fun f => (f.name, f))).lookup p.1
        = some p.2 := by
    intro p hp
    rcases List.mem_map.mp hp with ⟨q, hq, he⟩
    rw [← he]
    exact lookup_pair_append_left hnd1 hq
  have hF3 : ∀ p ∈ l₂.map (fun f => (f.name, f)),
      ((l₁.map (fun f => (f.name, f))) ++ l₂.map (fun f => (f.name, f))).lookup p.1
        = some p.2 := by
    intro p hp
    rcases List.mem_map.mp hp with ⟨q, hq, he⟩
    have hq_mem : q.name ∈ l₂.map SchemaField.name := List.mem_map.mpr ⟨q, hq, rfl⟩
    have hq_not_l₁ : q.name ∉ l₁.map SchemaField.name := fun h =>
      hdisj h (List.mem_cons_of_mem _ hq_mem)
    rw [← he, lookup_pair_append_skip hq_not_l₁]
    exact lookup_map_self hnd2' hq
  have hF2 : ((l₁.map (fun f => (f.name, f))) ++
      l₂.map (fun f => (f.name, f))).lookup f.name = none := by
    rw [lookup_pair_append_skip hf_not_l₁]
    exact lookup_map_none hf_not_l₂
  unfold detect_breaking_changes
  simp only [Schema.fields]
  rw [fieldsDict_eq_map hnd_old, fieldsDict_eq_map hnd_new]
  simp only [List.map_append, List.map_cons]
  rw [List.flatMap_append, List.flatMap_append, List.flatMap_cons, List.flatMap_cons]
  rw [flatMap_rem_nil (fun p hp => by rw [hF1 p hp]; rfl),
      flatMap_rem_nil (fun p hp => by rw [hF3 p hp]; rfl),
      flatMap_chg_nil hF1, flatMap_chg_nil hF3]
  have hrem : remEntry ((l₁.map (fun f => (f.name, f))) ++ l₂.map (fun f => (f.name, f)))
      (f.name, f) = ["Removed field: " ++ f.name] := by
    unfold remEntry
    rw [show ((f.name : String), f).1 = f.name from rfl, hF2]
    rfl
  have hchg : chgEntries ((l₁.map (fun f => (f.name, f))) ++ l₂.map (fun f => (f.name, f)))
      (f.name, f) = [] := by
    unfold chgEntries
    rw [show ((f.name : String), f).1 = f.name from rfl, hF2]
  rw [hrem, hchg]
  rfl

/-! ## Claim C1 -/

/-- C1: against an old schema whose uniquely-named fields contain amount
(DECIMAL, nullable), the detector returns exactly the single entry
"Field amount changed from nullable to non-nullable" when the new schema
differs only by making that field non-nullable, and exactly the single
entry "Removed field: amount" when the new schema differs only by dropping
that field. -/
theorem claim_C1 (s : Schema) (l₁ l₂ : List SchemaField) (f : SchemaField)
    (hnd : ((l₁ ++ f :: l₂).map SchemaField.name).Nodup)
    (hn : f.name = "amount") (_hd : f.data_type = "DECIMAL") (hnul : f.nullable = true) :
    detect_breaking_changes { s with fields := l₁ ++ f :: l₂ }
        { s with fields := l₁ ++ { f with nullable := false } :: l₂ }
      = ["Field amount changed from nullable to non-nullable"]
    ∧ detect_breaking_changes { s with fields := l₁ ++ f :: l₂ }
        { s with fields := l₁ ++ l₂ }
      = ["Removed field: amount"] := by
  constructor
  · rw [detect_single_nullable s l₁ l₂ f hnd hnul, hn]
    decide
  · rw [detect_single_removed s l₁ l₂ f hnd, hn]
    decide

/-- C1 witness: the two detector runs at the concrete orders schemas. -/
theorem claim_C1_witness :
    detect_breaking_changes { ordersOld with fields := [idField] ++ amountField :: [] }
        { ordersOld with fields := [idField] ++ { amountField with nullable := false } :: [] }
      = ["Field amount changed from nullable to non-nullable"]
    ∧ detect_breaking_changes { ordersOld with fields := [idField] ++ amountField :: [] }
        { ordersOld with fields := [idField] ++ [] }
      = ["Removed field: amount"] :=
  claim_C1 ordersOld [idField] [] amountField (by decide) (by decide) (by decide) (by decide)

/-! ## Claim C2 -/

/-- C2: every entry the detector emits is one of exactly four kinds, each
tied to a field of the old schema: the field is absent from the new schema
(removed entry), its data_type string differs (type-change entry), it went
from nullable to non-nullable, or it went from non-primary-key to primary
key. In particular fields added in the new schema, fields relaxed from
non-nullable to nullable, and fields demoted from primary key never
produce an entry, since no entry shape corresponds to them. -/
theorem claim_C2 (old_schema new_schema : Schema) (c : String)
    (hc : c ∈ detect_breaking_changes old_schema new_schema) :
    ∃ p ∈ fieldsDict old_schema.fields,
      ((fieldsDict new_schema.fields).lookup p.1 = none ∧
        c = "Removed field: " ++ p.1)
      ∨ (∃ nf, (fieldsDict new_schema.fields).lookup p.1 = some nf ∧
          ((p.2.data_type ≠ nf.data_type ∧
             c = "Changed data type for field " ++ p.1 ++ ": "
                  ++ p.2.data_type ++ " -> " ++ nf.data_type)
           ∨ (p.2.nullable = true ∧ nf.nullable = false ∧
               c = "Field " ++ p.1 ++ " changed from nullable to non-nullable")
           ∨ (p.2.primary_key = false ∧ nf.primary_key = true ∧
               c = "Field " ++ p.1 ++ " changed to primary key"))) :=
  detect_mem_shapes hc

/-- C2 witness: the removed-amount entry at the concrete orders schemas. -/
theorem claim_C2_witness :
    ∃ p ∈ fieldsDict ordersOld.fields,
      ((fieldsDict ordersRemoved.fields).lookup p.1 = none ∧
        "Removed field: amount" = "Removed field: " ++ p.1)
      ∨ (∃ nf, (fieldsDict ordersRemoved.fields).lookup p.1 = some nf ∧
          ((p.2.data_type ≠ nf.data_type ∧
             "Removed field: amount" = "Changed data type for field " ++ p.1 ++ ": "
                  ++ p.2.data_type ++ " -> " ++ nf.data_type)
           ∨ (p.2.nullable = true ∧ nf.nullable = false ∧
               "Removed field: amount" = "Field " ++ p.1
                  ++ " changed from nullable to non-nullable")
           ∨ (p.2.primary_key = false ∧ nf.primary_key = true ∧
               "Removed field: amount" = "Field " ++ p.1 ++ " changed to primary key"))) :=
  claim_C2 ordersOld ordersRemoved "Removed field: amount" (by decide)

/-! ## Helper lemmas: the validate_schema field loop -/

theorem validateFields_append (ty : SchemaType) :
    ∀ (xs ys : List SchemaField) (st : FieldLoopState),
      validateFields ty (xs ++ ys) st = validateFields ty ys (validateFields ty xs st) := by
  intro xs
  induction xs with
  | nil => intro ys st; rfl
  | cons f rest ih =>
    intro ys st
    simp only [List.cons_append, validateFields]
    split
    · exact ih ys _
    · exact ih ys _

theorem validateFields_errors_mono (ty : SchemaType) :
    ∀ (fs : List SchemaField) (st : FieldLoopState) (e : String),
      e ∈ st.errors → e ∈ (validateFields ty fs st).errors := by
  intro fs
  induction fs with
  | nil => intro st e he; exact he
  | cons f rest ih =>
    intro st e he
    simp only [validateFields]
    split
    · exact ih _ e (List.mem_append_left _ he)
    · apply ih
      simp only
      split <;> split
      · exact List.mem_append_left _ (List.mem_append_left _ he)
      · exact List.mem_append_left _ he
      · exact List.mem_append_left _ he
      · exact he

theorem validateFields_names (ty : SchemaType) :
    ∀ (fs : List SchemaField) (st : FieldLoopState),
      (validateFields ty fs st).field_names =
        st.field_names ++ (fs.filter (fun f => !(f.name == ""))).map SchemaField.name := by
  intro fs
  induction fs with
  | nil => intro st; simp [validateFields]
  | cons f rest ih =>
    intro st
    simp only [validateFields]
    by_cases h : f.name = ""
    · rw [if_pos h]
      rw [ih]
      simp [List.filter_cons, h]
    · rw [if_neg h]
      rw [ih]
      simp only
      rw [List.filter_cons]
      rw [if_pos (by simp [h])]
      simp

theorem validateFields_pks (ty : SchemaType) :
    ∀ (fs : List SchemaField) (st : FieldLoopState),
      (validateFields ty fs st).primary_keys =
        st.primary_keys ++
          (fs.filter (fun f => !(f.name == "") && f.primary_key)).map SchemaField.name := by
  intro fs
  induction fs with
  | nil => intro st; simp [validateFields]
  | cons f rest ih =>
    intro st
    simp only [validateFields]
    by_cases h : f.name = ""
    · rw [if_pos h]
      rw [ih]
      simp [List.filter_cons, h]
    · rw [if_neg h]
      rw [ih]
      simp only
      by_cases hpk : f.primary_key = true
      · rw [if_pos hpk]
        rw [List.filter_cons,
            if_pos (show (!(f.name == "") && f.primary_key) = true by simp [h, hpk])]
        simp
      · rw [if_neg hpk]
        rw [List.filter_cons,
            if_neg (show ¬((!(f.name == "") && f.primary_key) = true) by simp [h, hpk])]

theorem validateFields_mem_errors (ty : SchemaType) :
    ∀ (fs : List SchemaField) (st : FieldLoopState) (e : String),
      e ∈ (validateFields ty fs st).errors →
      e ∈ st.errors ∨ e = "All fields must have a name" ∨
      (∃ n, n ≠ "" ∧ e = "Duplicate field name: " ++ n) ∨
      (∃ t n, n ≠ "" ∧ e = "Invalid data type " ++ t ++ " for field " ++ n) := by
  intro fs
  induction fs with
  | nil => intro st e he; exact Or.inl he
  | cons f rest ih =>
    intro st e he
    simp only [validateFields] at he
    by_cases h : f.name = ""
    · rw [if_pos h] at he
      rcases ih _ e he with h2 | h2 | h2 | h2
      · rcases List.mem_append.mp h2 with h3 | h3
        · exact Or.inl h3
        · exact Or.inr (Or.inl (by simpa using h3))
      · exact Or.inr (Or.inl h2)
      · exact Or.inr (Or.inr (Or.inl h2))
      · exact Or.inr (Or.inr (Or.inr h2))
    · rw [if_neg h] at he
      rcases ih _ e he with h2 | h2 | h2 | h2
      · simp only at h2
        have hsplit : e ∈ (if f.name ∈ st.field_names
            then st.errors ++ ["Duplicate field name: " ++ f.name] else st.errors) ∨
            e = "Invalid data type " ++ f.data_type ++ " for field " ++ f.name := by
          revert h2
          split
          · intro h2
            rcases List.mem_append.mp h2 with h3 | h3
            · exact Or.inl h3
            · exact Or.inr (by simpa using h3)
          · intro h2
            exact Or.inl h2
        rcases hsplit with h3 | h3
        · revert h3
          split
          · intro h3
            rcases List.mem_append.mp h3 with h4 | h4
            · exact Or.inl h4
            · exact Or.inr (Or.inr (Or.inl ⟨f.name, h, by simpa using h4⟩))
          · intro h3
            exact Or.inl h3
        · exact Or.inr (Or.inr (Or.inr ⟨f.data_type, f.name, h, h3⟩))
      · exact Or.inr (Or.inl h2)
      · exact Or.inr (Or.inr (Or.inl h2))
      · exact Or.inr (Or.inr (Or.inr h2))

theorem str_data_head_append {a : String} (x : String) {c : Char}
    (hc : a.data.head? = some c) : (a ++ x).data.head? = some c := by
  rw [String.data_append, List.head?_append, hc]
  rfl

theorem validate_valid_eq (s : Schema) :
    (validate_schema s).valid = (validate_schema s).errors.isEmpty := rfl

theorem validateFields_count_missing (ty : SchemaType) :
    ∀ (fs : List SchemaField) (st : FieldLoopState),
      ((validateFields ty fs st).errors).count "All fields must have a name" =
        st.errors.count "All fields must have a name" +
          (fs.filter (fun f => f.name == "")).length := by
  intro fs
  induction fs with
  | nil => intro st; simp [validateFields]
  | cons f rest ih =>
    intro st
    simp only [validateFields]
    by_cases h : f.name = ""
    · rw [if_pos h]
      rw [ih]
      rw [List.filter_cons, if_pos (by simp [h])]
      simp only [List.count_append, List.length_cons]
      rw [show (["All fields must have a name"] : List String).count
        "All fields must have a name" = 1 from rfl]
      omega
    · rw [if_neg h]
      rw [ih]
      simp only
      have hdup : (("Duplicate field name: " ++ f.name : String) ==
          "All fields must have a name") = false := by
        apply beq_eq_false_iff_ne.mpr
        exact str_ne_of_data_head (by
          rw [str_data_head_append f.name
            (show ("Duplicate field name: " : String).data.head? = some 'D' from rfl)]
          decide)
      have hinv : (("Invalid data type " ++ f.data_type ++ " for field " ++ f.name : String) ==
          "All fields must have a name") = false := by
        apply beq_eq_false_iff_ne.mpr
        apply str_ne_of_data_head
        rw [show ("Invalid data type " ++ f.data_type ++ " for field " ++ f.name : String).data.head?
          = some 'I' from str_data_head_append _ (str_data_head_append _
            (str_data_head_append _ rfl))]
        decide
      rw [List.filter_cons, if_neg (show ¬((f.name == "") = true) by simp [h])]
      split <;> split <;>
        simp [List.count_append, List.count_cons, hdup, hinv]

theorem validateFields_dup_mem (ty : SchemaType) (f : SchemaField) (fs : List SchemaField)
    (st : FieldLoopState) (h : f.name ≠ "") (hmem : f.name ∈ st.field_names) :
    ("Duplicate field name: " ++ f.name) ∈ (validateFields ty (f :: fs) st).errors := by
  simp only [validateFields]
  rw [if_neg h]
  apply validateFields_errors_mono
  simp only
  rw [if_pos hmem]
  split
  · exact List.mem_append_left _ (List.mem_append_right _ (by simp))
  · exact List.mem_append_right _ (by simp)

theorem validateFields_invalid_mem (ty : SchemaType) :
    ∀ (fs : List SchemaField) (st : FieldLoopState) (f : SchemaField),
      f ∈ fs → f.name ≠ "" → is_valid_data_type f.data_type ty = false →
      ("Invalid data type " ++ f.data_type ++ " for field " ++ f.name)
        ∈ (validateFields ty fs st).errors := by
  intro fs
  induction fs with
  | nil => intro st f hf; cases hf
  | cons g rest ih =>
    intro st f hf hn hv
    rcases List.mem_cons.mp hf with hf | hf
    · subst hf
      simp only [validateFields]
      rw [if_neg hn]
      apply validateFields_errors_mono
      simp only
      rw [if_pos (show (!(is_valid_data_type f.data_type ty)) = true by rw [hv]; rfl)]
      exact List.mem_append_right _ (by simp)
    · simp only [validateFields]
      split
      · exact ih _ f hf hn hv
      · exact ih _ f hf hn hv

theorem ite_some_eq {α : Type} {c : Prop} [inst : Decidable c] {a e : α}
    (h : (if c then some a else none) = some e) : e = a := by
  split at h
  · exact ((Option.some.injEq _ _).mp h).symm
  · cases h

theorem validate_errors_mem {s : Schema} {e : String}
    (he : e ∈ (validate_schema s).errors) :
    e = "Schema name is required" ∨ e = "Schema must have at least one field" ∨
    e = "All fields must have a name" ∨
    (∃ n, n ≠ "" ∧ e = "Duplicate field name: " ++ n) ∨
    (∃ t n, n ≠ "" ∧ e = "Invalid data type " ++ t ++ " for field " ++ n) ∨
    (∃ i n, e = "Index " ++ i ++ " references non-existent field: " ++ n) ∨
    (∃ r n, e = "Relationship " ++ r ++ " references non-existent source field: " ++ n) := by
  simp only [validate_schema] at he
  rcases List.mem_append.mp he with he | he
  · rcases List.mem_append.mp he with he | he
    · rcases validateFields_mem_errors s.schema_type s.fields _ e he with h | h | h | h
      · rcases List.mem_append.mp h with h | h
        · revert h
          split
          · intro h
            exact Or.inl (by simpa using h)
          · intro h
            cases h
        · revert h
          split
          · intro h
            exact Or.inr (Or.inl (by simpa using h))
          · intro h
            cases h
      · exact Or.inr (Or.inr (Or.inl h))
      · exact Or.inr (Or.inr (Or.inr (Or.inl h)))
      · exact Or.inr (Or.inr (Or.inr (Or.inr (Or.inl h))))
    · rcases List.mem_flatMap.mp he with ⟨idx, _, hm⟩
      rcases List.mem_filterMap.mp hm with ⟨fn, _, hsome⟩
      exact Or.inr (Or.inr (Or.inr (Or.inr (Or.inr (Or.inl
        ⟨idx.name, fn, ite_some_eq hsome⟩)))))
  · rcases List.mem_filterMap.mp he with ⟨rel, _, hsome⟩
    exact Or.inr (Or.inr (Or.inr (Or.inr (Or.inr (Or.inr
      ⟨rel.name, rel.source_field, ite_some_eq hsome⟩)))))

theorem str_eq_append_right {s t : String} (h : s = s ++ t) : t = "" := by
  have hd := congrArg String.data h
  rw [String.data_append] at hd
  apply String.ext
  exact List.self_eq_append_right.mp hd

/-! ## Claim C6 -/

/-- C6: validate_schema reports valid = false exactly when at least one
error string was recorded, and warnings never affect validity: a
RELATIONAL schema none of whose fields is a primary key, with no errors,
gets the primary-key warning yet valid = true; a schema whose field list
contains two fields named id gets the error "Duplicate field name: id"
and valid = false. -/
theorem claim_C6 :
    (∀ s : Schema, (validate_schema s).valid = false ↔ (validate_schema s).errors ≠ [])
    ∧ (∀ s : Schema, s.schema_type = SchemaType.RELATIONAL →
        (∀ f ∈ s.fields, f.primary_key = false) →
        (validate_schema s).errors = [] →
        "Relational schema should have a primary key" ∈ (validate_schema s).warnings
          ∧ (validate_schema s).valid = true)
    ∧ (∀ (s : Schema) (l₁ l₂ l₃ : List SchemaField) (f₁ f₂ : SchemaField),
        s.fields = l₁ ++ f₁ :: l₂ ++ f₂ :: l₃ →
        f₁.name = "id" → f₂.name = "id" →
        "Duplicate field name: id" ∈ (validate_schema s).errors
          ∧ (validate_schema s).valid = false) := by
  refine ⟨?_, ?_, ?_⟩
  · intro s
    rw [validate_valid_eq]
    rcases hE : (validate_schema s).errors with _ | ⟨a, t⟩
    · simp
    · simp
  · intro s hrel hpk herr
    have hfilter : s.fields.filter (fun f => !(f.name == "") && f.primary_key) = [] :=
      List.filter_eq_nil_iff.mpr (fun f hf => by simp [hpk f hf])
    have hpks : ∀ st : FieldLoopState, st.primary_keys = [] →
        (validateFields s.schema_type s.fields st).primary_keys = [] := by
      intro st hst
      rw [validateFields_pks, hst, hfilter]
      rfl
    constructor
    · simp only [validate_schema]
      apply List.mem_append_left
      apply List.mem_append_left
      rw [if_pos (⟨hrel, hpks _ rfl⟩ :
        s.schema_type = SchemaType.RELATIONAL ∧ _ = [])]
      exact List.mem_singleton.mpr rfl
    · rw [validate_valid_eq, herr]
      rfl
  · intro s l₁ l₂ l₃ f₁ f₂ hfe h1 h2
    have hfe2 : s.fields = ((l₁ ++ [f₁]) ++ l₂) ++ (f₂ :: l₃) := by
      rw [hfe]; simp
    have hmem : "Duplicate field name: id" ∈ (validate_schema s).errors := by
      simp only [validate_schema]
      apply List.mem_append_left
      apply List.mem_append_left
      rw [hfe2, validateFields_append, validateFields_append]
      rw [show ("Duplicate field name: id" : String) =
        "Duplicate field name: " ++ f₂.name from by rw [h2]; decide]
      apply validateFields_dup_mem
      · rw [h2]; decide
      · rw [h2]
        rw [validateFields_names, validateFields_names]
        apply List.mem_append_left
        apply List.mem_append_right
        rw [List.filter_append, List.map_append]
        apply List.mem_append_right
        simp [List.filter, h1]
    refine ⟨hmem, ?_⟩
    have hne := List.ne_nil_of_mem hmem
    rw [validate_valid_eq]
    rcases hE : (validate_schema s).errors with _ | ⟨a, t⟩
    · exact absurd hE hne
    · rfl

/-- C6 witness: the relational no-primary-key schema and the duplicate-id
schema, concretely. -/
theorem claim_C6_witness :
    ((validate_schema relNoPk).valid = false ↔ (validate_schema relNoPk).errors ≠ [])
    ∧ ("Relational schema should have a primary key" ∈ (validate_schema relNoPk).warnings
        ∧ (validate_schema relNoPk).valid = true)
    ∧ ("Duplicate field name: id" ∈ (validate_schema dupIdSchema).errors
        ∧ (validate_schema dupIdSchema).valid = false) :=
  ⟨claim_C6.1 relNoPk,
   claim_C6.2.1 relNoPk rfl (by decide) (by decide),
   claim_C6.2.2 dupIdSchema [] [] [] { name := "id", data_type := "INTEGER" }
     { name := "id", data_type := "INTEGER" } rfl rfl rfl⟩

/-! ## Claim C7 -/

/-- C7: a data type passes _is_valid_data_type exactly when its upper-cased
form is in the fixed whitelist of the schema type; the whitelist table has
entries only for the five listed schema types, so GRAPH gets the empty
list and every data type is rejected; in validate_schema this surfaces as
an invalid-data-type error for every (named) field of a GRAPH schema. -/
theorem claim_C7 :
    (∀ (dt : String) (ty : SchemaType),
        is_valid_data_type dt ty = true ↔ pyUpper dt ∈ valid_types ty)
    ∧ valid_types SchemaType.GRAPH = []
    ∧ (∀ dt : String, is_valid_data_type dt SchemaType.GRAPH = false)
    ∧ (∀ (s : Schema) (f : SchemaField), s.schema_type = SchemaType.GRAPH →
        f ∈ s.fields → f.name ≠ "" →
        ("Invalid data type " ++ f.data_type ++ " for field " ++ f.name)
          ∈ (validate_schema s).errors) := by
  refine ⟨?_, rfl, ?_, ?_⟩
  · intro dt ty
    exact List.elem_iff
  · intro dt
    rfl
  · intro s f hty hf hn
    simp only [validate_schema]
    apply List.mem_append_left
    apply List.mem_append_left
    exact validateFields_invalid_mem s.schema_type s.fields _ f hf hn (by rw [hty]; rfl)

/-- C7 witness: the GRAPH schema with one STRING field. -/
theorem claim_C7_witness :
    (is_valid_data_type "STRING" SchemaType.RELATIONAL = true
      ↔ pyUpper "STRING" ∈ valid_types SchemaType.RELATIONAL)
    ∧ (is_valid_data_type "STRING" SchemaType.GRAPH = false)
    ∧ ("Invalid data type " ++ ({ name := "a", data_type := "STRING" } : SchemaField).data_type
        ++ " for field " ++ ({ name := "a", data_type := "STRING" } : SchemaField).name
        ∈ (validate_schema graphSchema).errors) :=
  ⟨claim_C7.1 "STRING" SchemaType.RELATIONAL,
   claim_C7.2.2.1 "STRING",
   claim_C7.2.2.2 graphSchema { name := "a", data_type := "STRING" } rfl
     (by decide) (by decide)⟩

/-! ## Claim C10 -/

theorem validate_count_missing (s : Schema) :
    (validate_schema s).errors.count "All fields must have a name" =
      (s.fields.filter (fun f => f.name == "")).length := by
  simp only [validate_schema]
  rw [List.count_append, List.count_append]
  rw [validateFields_count_missing]
  have h0 : ((if s.name = "" then ["Schema name is required"] else []) ++
      (if s.fields = [] then ["Schema must have at least one field"] else [])).count
        "All fields must have a name" = 0 := by
    rw [List.count_append]
    split <;> split <;> decide
  have hidx : (s.indexes.flatMap (fun idx =>
      idx.fields.filterMap (fun fn =>
        if fn ∉ (validateFields s.schema_type s.fields
            { field_names := [], primary_keys := [],
              errors := (if s.name = "" then ["Schema name is required"] else []) ++
                (if s.fields = [] then ["Schema must have at least one field"] else []) }).field_names
          then some ("Index " ++ idx.name ++ " references non-existent field: " ++ fn)
          else none))).count "All fields must have a name" = 0 := by
    rw [List.count_eq_zero]
    intro hmem
    rcases List.mem_flatMap.mp hmem with ⟨idx, _, hm⟩
    rcases List.mem_filterMap.mp hm with ⟨fn, _, hsome⟩
    have he := ite_some_eq hsome
    revert he
    apply str_ne_of_data_head
    rw [str_data_head_append _ (str_data_head_append _ (str_data_head_append _
      (show ("Index " : String).data.head? = some 'I' from rfl)))]
    decide
  have hrel : (s.relationships.filterMap (fun rel =>
      if rel.source_field ∉ (validateFields s.schema_type s.fields
          { field_names := [], primary_keys := [],
            errors := (if s.name = "" then ["Schema name is required"] else []) ++
              (if s.fields = [] then ["Schema must have at least one field"] else []) }).field_names
        then some ("Relationship " ++ rel.name ++ " references non-existent source field: "
                    ++ rel.source_field)
        else none)).count "All fields must have a name" = 0 := by
    rw [List.count_eq_zero]
    intro hmem
    rcases List.mem_filterMap.mp hmem with ⟨rel, _, hsome⟩
    have he := ite_some_eq hsome
    revert he
    apply str_ne_of_data_head
    rw [str_data_head_append _ (str_data_head_append _ (str_data_head_append _
      (show ("Relationship " : String).data.head? = some 'R' from rfl)))]
    decide
  rw [hidx, hrel, h0]
  omega

/-- C10: a field with an empty name makes validate_schema record the error
"All fields must have a name" and skip every other per-field check (the
loop step is exactly the error append); consequently the number of
missing-name errors equals the number of empty-named fields (two empty
names give two such errors), the field-name set collects exactly the
nonempty names, and the duplicate error for the empty name never occurs
in any validation result. -/
theorem claim_C10 :
    (∀ (ty : SchemaType) (f : SchemaField) (fs : List SchemaField) (st : FieldLoopState),
        f.name = "" →
        validateFields ty (f :: fs) st =
          validateFields ty fs { st with errors := st.errors ++ ["All fields must have a name"] })
    ∧ (∀ s : Schema,
        (validate_schema s).errors.count "All fields must have a name" =
          (s.fields.filter (fun f => f.name == "")).length)
    ∧ (∀ (ty : SchemaType) (fs : List SchemaField) (st : FieldLoopState),
        (validateFields ty fs st).field_names =
          st.field_names ++ (fs.filter (fun f => !(f.name == ""))).map SchemaField.name)
    ∧ (∀ s : Schema, "Duplicate field name: " ∉ (validate_schema s).errors) := by
  refine ⟨?_, validate_count_missing, fun ty fs st => validateFields_names ty fs st, ?_⟩
  · intro ty f fs st h
    simp [validateFields, h]
  · intro s hmem
    rcases validate_errors_mem hmem with h | h | h | h | h | h | h
    · exact absurd h (by decide)
    · exact absurd h (by decide)
    · exact absurd h (by decide)
    · rcases h with ⟨n, hn, he⟩
      exact hn (str_eq_append_right he)
    · rcases h with ⟨t, n, _, he⟩
      revert he
      apply str_ne_of_data_head
      rw [str_data_head_append _ (str_data_head_append _ (str_data_head_append _
        (show ("Invalid data type " : String).data.head? = some 'I' from rfl)))]
      decide
    · rcases h with ⟨i, n, he⟩
      revert he
      apply str_ne_of_data_head
      rw [str_data_head_append _ (str_data_head_append _ (str_data_head_append _
        (show ("Index " : String).data.head? = some 'I' from rfl)))]
      decide
    · rcases h with ⟨r, n, he⟩
      revert he
      apply str_ne_of_data_head
      rw [str_data_head_append _ (str_data_head_append _ (str_data_head_append _
        (show ("Relationship " : String).data.head? = some 'R' from rfl)))]
      decide

/-- C10 witness: a loop step at a concrete empty-named field, and the
missing-name error count of the schema with two empty-named fields. -/
theorem claim_C10_witness :
    (validateFields SchemaType.RELATIONAL
        [{ name := "", data_type := "WHAT" }, { name := "", data_type := "EVER" }]
        { field_names := [], primary_keys := [], errors := [] } =
      validateFields SchemaType.RELATIONAL [{ name := "", data_type := "EVER" }]
        { field_names := [], primary_keys := [],
          errors := [] ++ ["All fields must have a name"] })
    ∧ (validate_schema emptyNamesSchema).errors.count "All fields must have a name" = 2 :=
  ⟨claim_C10.1 SchemaType.RELATIONAL { name := "", data_type := "WHAT" }
      [{ name := "", data_type := "EVER" }]
      { field_names := [], primary_keys := [], errors := [] } rfl,
   (claim_C10.2.1 emptyNamesSchema).trans (by decide)⟩

/-! ## Claim C9 -/

/-- C9: _generate_schema_hash hashes the normalized json of the schema
dict with the metadata key popped, so any two schemas that agree on every
field except metadata produce the same hash string. -/
theorem claim_C9 (s₁ s₂ : Schema)
    (hname : s₁.name = s₂.name) (hver : s₁.version = s₂.version)
    (hty : s₁.schema_type = s₂.schema_type) (hdesc : s₁.description = s₂.description)
    (hfields : s₁.fields = s₂.fields) (hidx : s₁.indexes = s₂.indexes)
    (hrel : s₁.relationships = s₂.relationships)
    (hbo : s₁.business_owner = s₂.business_owner)
    (hto : s₁.technical_owner = s₂.technical_owner)
    (hcls : s₁.classification = s₂.classification)
    (hret : s₁.retention_policy = s₂.retention_policy)
    (hbak : s₁.backup_policy = s₂.backup_policy) (htags : s₁.tags = s₂.tags) :
    generate_schema_hash s₁ = generate_schema_hash s₂ := by
  suffices h : jsonOfSchemaNoMetadata s₁ = jsonOfSchemaNoMetadata s₂ by
    unfold generate_schema_hash
    rw [h]
  unfold jsonOfSchemaNoMetadata
  rw [hname, hver, hty, hdesc, hfields, hidx, hrel, hbo, hto, hcls, hret, hbak, htags]

/-- C9 witness: the orders schema against itself with different metadata. -/
theorem claim_C9_witness :
    generate_schema_hash ordersOld =
      generate_schema_hash { ordersOld with metadata := [("k", "v")] } :=
  claim_C9 ordersOld { ordersOld with metadata := [("k", "v")] }
    rfl rfl rfl rfl rfl rfl rfl rfl rfl rfl rfl rfl rfl

/-! ## Helper lemmas: store lookups after writes -/

theorem lookup_pyDictPut {α : Type} (m : List (String × α)) (k : String) (v : α) :
    (pyDictPut m k v).lookup k = some v := by
  unfold pyDictPut
  split
  · rename_i hsome
    induction m with
    | nil => simp at hsome
    | cons a m ih =>
      rcases a with ⟨a1, a2⟩
      by_cases hk : (a1 == k) = true
      · simp only [List.map_cons, if_pos hk]
        simp [List.lookup]
      · simp only [List.map_cons, if_neg hk]
        have hk2 : (k == a1) = false := by
          apply beq_eq_false_iff_ne.mpr
          intro he
          exact absurd (beq_iff_eq.mpr he.symm) (by simpa using hk)
        simp only [List.lookup, hk2]
        apply ih
        simpa [List.lookup, hk2] using hsome
  · rw [List.lookup_append]
    rename_i hnone
    rw [Option.not_isSome_iff_eq_none.mp hnone]
    simp [List.lookup]

/-! ## Claim C5 -/

/-- C5: create_schema returns false and leaves the whole store untouched
(no schema, version or governance write) when validation fails or a schema
of the same name already exists; in particular a second create with the
same name returns false and leaves the state produced by the first create,
including its stored document, unchanged. -/
theorem claim_C5 (st : ManagerState) (schema : Schema) (now : String) :
    ((validate_schema schema).valid = false → create_schema st schema now = (false, st))
    ∧ (schema_exists st schema.name = true → create_schema st schema now = (false, st))
    ∧ (∀ (s₂ : Schema) (now₂ : String), s₂.name = schema.name →
        (create_schema st schema now).fst = true →
        create_schema (create_schema st schema now).snd s₂ now₂
          = (false, (create_schema st schema now).snd)) := by
  refine ⟨?_, ?_, ?_⟩
  · intro hv
    unfold create_schema
    rw [hv]
    rfl
  · intro hex
    unfold create_schema
    rw [hex]
    split
    · rfl
    · rfl
  · intro s₂ now₂ hsname hfst
    cases hv : (validate_schema schema).valid with
    | false =>
      have hc : create_schema st schema now = (false, st) := by
        unfold create_schema
        rw [hv]
        rfl
      rw [hc] at hfst
      cases hfst
    | true =>
      cases hex : schema_exists st schema.name with
      | true =>
        have hc : create_schema st schema now = (false, st) := by
          unfold create_schema
          rw [hv, hex]
          rfl
        rw [hc] at hfst
        cases hfst
      | false =>
        have hsnd : (create_schema st schema now).snd =
            { definitions := pyDictPut st.definitions schema.name
                (schema, generate_schema_hash schema),
              versions := save_version st.versions schema.name
                { version := schema.version, created_at := now,
                  created_by := pyOrStr schema.technical_owner "system",
                  description := "Initial schema creation: " ++ schema.description,
                  changes := ["Initial schema creation"] },
              migrations := st.migrations,
              governance := pyDictPut st.governance schema.name
                (create_governance_record schema now) } := by
          unfold create_schema
          rw [hv, hex]
          rfl
        have hex2 : schema_exists (create_schema st schema now).snd s₂.name = true := by
          unfold schema_exists
          rw [hsnd, hsname]
          simp [lookup_pyDictPut]
        generalize hX : (create_schema st schema now).snd = X at hex2 ⊢
        unfold create_schema
        cases hv2 : (validate_schema s₂).valid with
        | false => rfl
        | true =>
          rw [hex2]
          rfl

/-- C5 witness: creating the orders schema twice from the empty store. -/
theorem claim_C5_witness :
    create_schema (create_schema emptyState ordersOld "t1").snd ordersOld "t2"
      = (false, (create_schema emptyState ordersOld "t1").snd) :=
  (claim_C5 emptyState ordersOld "t1").2.2 ordersOld "t2" rfl (by decide)

/-! ## Claim C4 -/

/-- C4: update_schema returns false with the store untouched when the
schema does not exist or the new schema fails validation; on success it
returns true (a non-empty breaking-change list never rejects the update),
overwrites the definitions document, appends a version record whose
breaking_changes flag is set exactly when the detector output against the
stored schema is non-empty, and writes the migration artifact if and only
if breaking changes were detected. -/
theorem claim_C4 (st : ManagerState) (schema : Schema) (vinfo : SchemaVersion) (now : String) :
    (schema_exists st schema.name = false → update_schema st schema vinfo now = (false, st))
    ∧ ((validate_schema schema).valid = false → update_schema st schema vinfo now = (false, st))
    ∧ (∀ cur hash, st.definitions.lookup schema.name = some (cur, hash) →
        (validate_schema schema).valid = true →
        (update_schema st schema vinfo now).fst = true
        ∧ ((update_schema st schema vinfo now).snd).definitions.lookup schema.name
            = some (schema, generate_schema_hash schema)
        ∧ ((update_schema st schema vinfo now).snd).versions.lookup schema.name
            = some ((st.versions.lookup schema.name).getD [] ++
                [{ vinfo with
                breaking_changes := decide (0 < (detect_breaking_changes cur schema).length) }])
        ∧ ({ vinfo with
                breaking_changes := decide (0 < (detect_breaking_changes cur schema).length) }.breaking_changes = true
            ↔ detect_breaking_changes cur schema ≠ [])
        ∧ ((update_schema st schema vinfo now).snd).migrations =
            (if detect_breaking_changes cur schema = [] then st.migrations
             else pyDictPut st.migrations (schema.name ++ "_" ++ vinfo.version ++ "_migration")
               (generate_migration schema.name cur schema
                 { vinfo with
                breaking_changes := decide (0 < (detect_breaking_changes cur schema).length) } now))) := by
  refine ⟨?_, ?_, ?_⟩
  · intro h
    unfold update_schema
    rw [h]
    rfl
  · intro hv
    unfold update_schema
    cases hex : schema_exists st schema.name with
    | false => rfl
    | true =>
      obtain ⟨p, hp⟩ := Option.isSome_iff_exists.mp (by
        unfold schema_exists at hex
        exact hex)
      rw [show get_schema st schema.name = some p.1 from by
        unfold get_schema
        rw [hp]
        rfl]
      rw [hv]
      rfl
  · intro cur hash hlook hv
    have hex : schema_exists st schema.name = true := by
      unfold schema_exists
      rw [hlook]
      rfl
    have hget : get_schema st schema.name = some cur := by
      unfold get_schema
      rw [hlook]
      rfl
    have hiff : ({ vinfo with
                breaking_changes := decide (0 < (detect_breaking_changes cur schema).length) }.breaking_changes = true
          ↔ detect_breaking_changes cur schema ≠ []) := by
      simp [List.length_pos]
    by_cases hdet : detect_breaking_changes cur schema = []
    · have hbc : decide (0 < (detect_breaking_changes cur schema).length) = false := by
        rw [hdet]
        rfl
      have hupd : update_schema st schema vinfo now =
          (true,
            { st with
              definitions :=
                (pyDictPut st.definitions schema.name (schema, generate_schema_hash schema)),
              versions :=
                (save_version st.versions schema.name
                  { vinfo with breaking_changes := false }) }) := by
        simp only [update_schema, hex, hget, hv, hbc]
        simp
      refine ⟨?_, ?_, ?_, hiff, ?_⟩
      · rw [hupd]
      · rw [hupd]
        simp [lookup_pyDictPut]
      · rw [hupd]
        simp only [hbc]
        simp [save_version, lookup_pyDictPut]
      · rw [hupd, if_pos hdet]
    · have hbc : decide (0 < (detect_breaking_changes cur schema).length) = true := by
        apply decide_eq_true
        exact List.length_pos.mpr hdet
      have hupd : update_schema st schema vinfo now =
          (true,
            { st with
              definitions :=
                (pyDictPut st.definitions schema.name (schema, generate_schema_hash schema)),
              versions :=
                (save_version st.versions schema.name
                  { vinfo with breaking_changes := true }),
              migrations :=
                (pyDictPut st.migrations
                  (schema.name ++ "_" ++ vinfo.version ++ "_migration")
                  (generate_migration schema.name cur schema
                    { vinfo with breaking_changes := true } now)) }) := by
        simp only [update_schema, hex, hget, hv, hbc]
        simp
      refine ⟨?_, ?_, ?_, hiff, ?_⟩
      · rw [hupd]
      · rw [hupd]
        simp [lookup_pyDictPut]
      · rw [hupd]
        simp only [hbc]
        simp [save_version, lookup_pyDictPut]
      · rw [hupd, if_neg hdet]
        simp only [hbc]

/-- C4 witness: updating the stored orders schema to the version with the
amount column retyped as VARCHAR. -/
theorem claim_C4_witness :
    (update_schema stateWithOrders ordersVarchar sampleVersion "T1").fst = true
    ∧ ((update_schema stateWithOrders ordersVarchar sampleVersion "T1").snd).definitions.lookup
        ordersVarchar.name = some (ordersVarchar, generate_schema_hash ordersVarchar)
    ∧ ((update_schema stateWithOrders ordersVarchar sampleVersion "T1").snd).versions.lookup
        ordersVarchar.name
        = some ((stateWithOrders.versions.lookup ordersVarchar.name).getD [] ++
            [{ sampleVersion with
                breaking_changes := decide (0 < (detect_breaking_changes ordersOld ordersVarchar).length) }])
    ∧ ({ sampleVersion with
                breaking_changes := decide (0 < (detect_breaking_changes ordersOld ordersVarchar).length) }.breaking_changes = true
        ↔ detect_breaking_changes ordersOld ordersVarchar ≠ [])
    ∧ ((update_schema stateWithOrders ordersVarchar sampleVersion "T1").snd).migrations =
        (if detect_breaking_changes ordersOld ordersVarchar = [] then stateWithOrders.migrations
         else pyDictPut stateWithOrders.migrations
           (ordersVarchar.name ++ "_" ++ sampleVersion.version ++ "_migration")
           (generate_migration ordersVarchar.name ordersOld ordersVarchar
             { sampleVersion with
                breaking_changes := decide (0 < (detect_breaking_changes ordersOld ordersVarchar).length) } "T1")) :=
  (claim_C4 stateWithOrders ordersVarchar sampleVersion "T1").2.2 ordersOld "h"
    (by decide) (by decide)

/-! ## Helper lemmas: search scoring and ranking -/

theorem ite_some_eq2 {α : Type} {c : Prop} [inst : Decidable c] {a e : α}
    (h : (if c then some a else none) = some e) : c ∧ e = a := by
  split at h
  · exact ⟨by assumption, ((Option.some.injEq _ _).mp h).symm⟩
  · cases h

theorem insertByScoreDesc_mem (a x : SearchResult) (l : List SearchResult) :
    x ∈ insertByScoreDesc a l ↔ x = a ∨ x ∈ l := by
  induction l with
  | nil => simp [insertByScoreDesc]
  | cons b rest ih =>
    unfold insertByScoreDesc
    split
    · simp
    · simp only [List.mem_cons, ih]
      tauto

theorem insertByScoreDesc_sorted (a : SearchResult) (l : List SearchResult)
    (h : l.Pairwise (fun x y => y.score ≤ x.score)) :
    (insertByScoreDesc a l).Pairwise (fun x y => y.score ≤ x.score) := by
  induction l with
  | nil => simp [insertByScoreDesc]
  | cons b rest ih =>
    rw [List.pairwise_cons] at h
    unfold insertByScoreDesc
    split
    · rename_i hba
      rw [List.pairwise_cons]
      constructor
      · intro x hx
        rcases List.mem_cons.mp hx with hx | hx
        · rw [hx]; exact hba
        · exact le_trans (h.1 x hx) hba
      · rw [List.pairwise_cons]
        exact h
    · rename_i hba
      rw [List.pairwise_cons]
      constructor
      · intro x hx
        rcases (insertByScoreDesc_mem a x rest).mp hx with hx | hx
        · rw [hx]
          omega
        · exact h.1 x hx
      · exact ih h.2

theorem sortByScoreDesc_mem (l : List SearchResult) (x : SearchResult) :
    x ∈ sortByScoreDesc l ↔ x ∈ l := by
  induction l with
  | nil => simp [sortByScoreDesc]
  | cons b rest ih =>
    unfold sortByScoreDesc
    simp only [List.foldr_cons]
    rw [insertByScoreDesc_mem]
    unfold sortByScoreDesc at ih
    rw [ih]
    simp

theorem sortByScoreDesc_sorted (l : List SearchResult) :
    (sortByScoreDesc l).Pairwise (fun x y => y.score ≤ x.score) := by
  induction l with
  | nil => simp [sortByScoreDesc]
  | cons b rest ih =>
    unfold sortByScoreDesc
    simp only [List.foldr_cons]
    exact insertByScoreDesc_sorted b _ ih

/-- The additive form of _calculate_search_score. -/
theorem calculate_search_score_formula (r : DataResource) (q : String) :
    (calculate_search_score r q).1 =
      (if pySubstr (pyLower q) (pyLower r.name) then 10 else 0)
      + (if pyTruthyStr r.description
          && pySubstr (pyLower q) (pyLower (r.description.getD "")) then 5 else 0)
      + (if r.tags.any (fun t => pySubstr (pyLower q) (pyLower t)) then 3 else 0)
      + (if r.metadata.any (fun p => pySubstr (pyLower q) (pyLower p.2.value)) then 2 else 0)
      + (if pySubstr (pyLower q) (pyLower r.system) then 1 else 0) := by
  rcases hfind : r.metadata.find? (fun p => pySubstr (pyLower q) (pyLower p.2.value))
    with _ | p
  · have hany : r.metadata.any (fun p => pySubstr (pyLower q) (pyLower p.2.value)) = false := by
      rw [List.any_eq_false]
      intro x hx
      have := List.find?_eq_none.mp hfind x hx
      simpa using this
    simp only [calculate_search_score, hfind, hany]
    split <;> split <;> split <;> split <;> simp
  · have hany : r.metadata.any (fun p => pySubstr (pyLower q) (pyLower p.2.value)) = true := by
      rw [List.any_eq_true]
      exact ⟨p, List.mem_of_find?_eq_some hfind,
        @List.find?_some (String × MetadataAttribute)
          (fun x => pySubstr (pyLower q) (pyLower x.2.value)) p r.metadata hfind⟩
    simp only [calculate_search_score, hfind, hany]
    split <;> split <;> split <;> split <;> simp

/-! ## Claim C8 -/

/-- C8: the search score is the sum of the per-field weights 10 (name),
5 (description), 3 (some tag), 2 (some metadata value), 1 (system), each
awarded on a case-insensitive substring match of the query; search output
keeps only strictly positive scores (with the stored score equal to the
computed one), has at most limit entries, and is sorted by score
descending; a resource matching in name and description scores 15 and
outranks a resource matching only in a tag, which scores 3. -/
theorem claim_C8 :
    (∀ (r : DataResource) (q : String),
        (calculate_search_score r q).1 =
          (if pySubstr (pyLower q) (pyLower r.name) then 10 else 0)
          + (if pyTruthyStr r.description
              && pySubstr (pyLower q) (pyLower (r.description.getD "")) then 5 else 0)
          + (if r.tags.any (fun t => pySubstr (pyLower q) (pyLower t)) then 3 else 0)
          + (if r.metadata.any (fun p => pySubstr (pyLower q) (pyLower p.2.value)) then 2 else 0)
          + (if pySubstr (pyLower q) (pyLower r.system) then 1 else 0))
    ∧ (∀ (resources : List DataResource) (q : String) (limit : Nat) (res : SearchResult),
        res ∈ search_resources resources q none limit →
        res.score = (calculate_search_score res.resource q).1 ∧ 0 < res.score)
    ∧ (∀ (resources : List DataResource) (q : String) (limit : Nat),
        (search_resources resources q none limit).length ≤ limit)
    ∧ (∀ (resources : List DataResource) (q : String) (limit : Nat),
        (search_resources resources q none limit).Pairwise (fun a b => b.score ≤ a.score))
    ∧ (∀ (r₁ r₂ : DataResource) (q : String),
        pySubstr (pyLower q) (pyLower r₁.name) = true →
        (pyTruthyStr r₁.description
          && pySubstr (pyLower q) (pyLower (r₁.description.getD ""))) = true →
        r₁.tags.any (fun t => pySubstr (pyLower q) (pyLower t)) = false →
        r₁.metadata.any (fun p => pySubstr (pyLower q) (pyLower p.2.value)) = false →
        pySubstr (pyLower q) (pyLower r₁.system) = false →
        pySubstr (pyLower q) (pyLower r₂.name) = false →
        (pyTruthyStr r₂.description
          && pySubstr (pyLower q) (pyLower (r₂.description.getD ""))) = false →
        r₂.tags.any (fun t => pySubstr (pyLower q) (pyLower t)) = true →
        r₂.metadata.any (fun p => pySubstr (pyLower q) (pyLower p.2.value)) = false →
        pySubstr (pyLower q) (pyLower r₂.system) = false →
        (calculate_search_score r₁ q).1 = 15 ∧ (calculate_search_score r₂ q).1 = 3
          ∧ (calculate_search_score r₂ q).1 < (calculate_search_score r₁ q).1) := by
  refine ⟨calculate_search_score_formula, ?_, ?_, ?_, ?_⟩
  · intro resources q limit res hres
    unfold search_resources at hres
    have hres2 := List.take_subset limit _ hres
    rw [sortByScoreDesc_mem] at hres2
    rcases List.mem_filterMap.mp hres2 with ⟨r, _, hsome⟩
    simp only [if_true] at hsome
    rcases ite_some_eq2 hsome with ⟨hpos, heq⟩
    rw [heq]
    exact ⟨rfl, hpos⟩
  · intro resources q limit
    unfold search_resources
    exact List.length_take_le _ _
  · intro resources q limit
    unfold search_resources
    exact List.Pairwise.sublist (List.take_sublist _ _) (sortByScoreDesc_sorted _)
  · intro r₁ r₂ q h1 h2 h3 h4 h5 g1 g2 g3 g4 g5
    rw [calculate_search_score_formula, calculate_search_score_formula]
    rw [h1, h2, h3, h4, h5, g1, g2, g3, g4, g5]
    simp

/-- C8 witness: user_orders (name and description match for "order",
score 15) against a resource matching only through its orders tag
(score 3). -/
theorem claim_C8_witness :
    (calculate_search_score userOrdersResource "order").1 = 15
    ∧ (calculate_search_score taggedResource "order").1 = 3
    ∧ (calculate_search_score taggedResource "order").1
        < (calculate_search_score userOrdersResource "order").1 :=
  claim_C8.2.2.2.2 userOrdersResource taggedResource "order"
    (by decide) (by decide) (by decide) (by decide) (by decide)
    (by decide) (by decide) (by decide) (by decide) (by decide)

/-! ## Helper lemmas: migration statement disambiguation -/

theorem mem_of_lookup_eq_some {α : Type} {m : List (String × α)} {k : String} {v : α}
    (h : m.lookup k = some v) : (k, v) ∈ m := by
  induction m with
  | nil => cases h
  | cons a m ih =>
    rcases a with ⟨a1, a2⟩
    by_cases hk : (k == a1) = true
    · simp only [List.lookup, hk] at h
      have := beq_iff_eq.mp hk
      subst this
      rcases (Option.some.injEq _ _).mp h with rfl
      exact List.mem_cons_self _ _
    · have hk2 : (k == a1) = false := by simpa using hk
      simp only [List.lookup, hk2] at h
      exact List.mem_cons_of_mem _ (ih h)

theorem drop_stmt_inj {n Y X : String}
    (h : ("ALTER TABLE " ++ n ++ " DROP COLUMN " ++ Y ++ ";")
       = ("ALTER TABLE " ++ n ++ " DROP COLUMN " ++ X ++ ";")) : Y = X := by
  have h2 := (str_append_left_inj _ _ _).mp h
  exact (str_append_right_inj _ _ _).mp h2

theorem drop_stmt_head {n X : String} :
    ("ALTER TABLE " ++ n ++ " DROP COLUMN " ++ X ++ ";").data.head? = some 'A' :=
  str_data_head_append _ (str_data_head_append _ (str_data_head_append _
    (str_data_head_append _ rfl)))

theorem alter_ne_drop (f B m X : String) :
    ("ALTER TABLE " ++ m ++ " ALTER COLUMN " ++ f ++ " TYPE " ++ B ++ ";")
      ≠ ("ALTER TABLE " ++ m ++ " DROP COLUMN " ++ X ++ ";") := by
  intro h
  rw [show ("ALTER TABLE " ++ m ++ " ALTER COLUMN " ++ f ++ " TYPE " ++ B ++ ";" : String)
      = ("ALTER TABLE " ++ m) ++ (" ALTER COLUMN " ++ (f ++ (" TYPE " ++ (B ++ ";"))))
      from by simp [String.append_assoc]] at h
  rw [show ("ALTER TABLE " ++ m ++ " DROP COLUMN " ++ X ++ ";" : String)
      = ("ALTER TABLE " ++ m) ++ (" DROP COLUMN " ++ (X ++ ";"))
      from by simp [String.append_assoc]] at h
  have h2 := (str_append_right_inj _ _ _).mp h
  rw [show (" ALTER COLUMN " : String) = " " ++ "ALTER COLUMN " from by decide,
      show (" DROP COLUMN " : String) = " " ++ "DROP COLUMN " from by decide] at h2
  rw [String.append_assoc, String.append_assoc] at h2
  have h3 := (str_append_right_inj _ _ _).mp h2
  exact str_head_ne _ _
    (show ("ALTER COLUMN " : String).data.head? = some 'A' from rfl)
    (show ("DROP COLUMN " : String).data.head? = some 'D' from rfl)
    (by decide) h3

theorem comment_ne_drop (c m X : String) :
    ("-- " ++ c) ≠ ("ALTER TABLE " ++ m ++ " DROP COLUMN " ++ X ++ ";") :=
  str_ne_of_data_head (by
    rw [str_data_head_append c (show ("-- " : String).data.head? = some '-' from rfl),
        drop_stmt_head]
    decide)

theorem sum_indicator_eq_zero {l : List (String × SchemaField)} {X : String}
    (hX : X ∉ l.map Prod.fst) :
    (l.map (fun p => if p.1 = X then 1 else 0)).sum = 0 := by
  apply List.sum_eq_zero
  intro x hx
  rcases List.mem_map.mp hx with ⟨p, hp, he⟩
  rw [← he]
  rw [if_neg (fun hc => hX (List.mem_map.mpr ⟨p, hp, hc⟩))]

theorem sum_indicator_eq_one {l : List (String × SchemaField)} {X : String}
    (hnd : (l.map Prod.fst).Nodup) (hmem : ∃ v, (X, v) ∈ l) :
    (l.map (fun p => if p.1 = X then 1 else 0)).sum = 1 := by
  induction l with
  | nil => rcases hmem with ⟨v, hv⟩; cases hv
  | cons a t ih =>
    rw [List.map_cons] at hnd
    rw [List.nodup_cons] at hnd
    by_cases ha : a.1 = X
    · simp only [List.map_cons, if_pos ha, List.sum_cons]
      rw [sum_indicator_eq_zero (ha ▸ hnd.1)]
    · simp only [List.map_cons, if_neg ha, List.sum_cons]
      rcases hmem with ⟨v, hv⟩
      rcases List.mem_cons.mp hv with hv | hv
      · exact absurd (congrArg Prod.fst hv).symm ha
      · rw [ih hnd.2 ⟨v, hv⟩]

theorem head_ne_drop {s m X : String} {c : Char} (hs : s.data.head? = some c)
    (hc : c ≠ 'A') : s ≠ ("ALTER TABLE " ++ m ++ " DROP COLUMN " ++ X ++ ";") :=
  str_ne_of_data_head (by rw [hs, drop_stmt_head]; simp [hc])

theorem empty_ne_drop {m X : String} :
    ("" : String) ≠ ("ALTER TABLE " ++ m ++ " DROP COLUMN " ++ X ++ ";") :=
  str_ne_of_data_head (by rw [drop_stmt_head]; decide)

theorem removed_ne_dtype (X f dt dt' : String) :
    ("Removed field: " ++ X) ≠
      ("Changed data type for field " ++ f ++ ": " ++ dt ++ " -> " ++ dt') :=
  str_ne_of_data_head (by
    rw [str_data_head_append X (show ("Removed field: " : String).data.head? = some 'R' from rfl),
        str_data_head_append _ (str_data_head_append _ (str_data_head_append _
          (str_data_head_append _ (str_data_head_append _
            (show ("Changed data type for field " : String).data.head? = some 'C' from rfl)))))]
    decide)

theorem removed_ne_field_msg (X : String) (t : String) (f : String) :
    ("Removed field: " ++ X) ≠ ("Field " ++ f ++ t) :=
  str_ne_of_data_head (by
    rw [str_data_head_append X (show ("Removed field: " : String).data.head? = some 'R' from rfl),
        str_data_head_append _ (str_data_head_append _
          (show ("Field " : String).data.head? = some 'F' from rfl))]
    decide)

theorem count_rem_part {newd : List (String × SchemaField)} {n X : String}
    (hnone : newd.lookup X = none) (p : String × SchemaField)
    (hg : goodIdent p.1 = true) :
    List.count ("ALTER TABLE " ++ n ++ " DROP COLUMN " ++ X ++ ";")
      ((remEntry newd p).flatMap (perChange n)) = if p.1 = X then 1 else 0 := by
  by_cases hpX : p.1 = X
  · rw [if_pos hpX]
    unfold remEntry
    rw [hpX, hnone]
    simp only [Option.isSome_none, Bool.false_eq_true, if_false]
    simp only [List.flatMap_cons, List.flatMap_nil, List.append_nil]
    rw [perChange_removed n X (goodIdent_no_colon (hpX ▸ hg))]
    have hne1 : (("-- " ++ ("Removed field: " ++ X)) ==
        ("ALTER TABLE " ++ n ++ " DROP COLUMN " ++ X ++ ";")) = false :=
      beq_eq_false_iff_ne.mpr (comment_ne_drop _ _ _)
    simp [List.count_cons, List.count_nil, hne1]
  · rw [if_neg hpX]
    unfold remEntry
    split
    · simp
    · simp only [List.flatMap_cons, List.flatMap_nil, List.append_nil]
      rw [perChange_removed n p.1 (goodIdent_no_colon hg)]
      have hne1 : (("-- " ++ ("Removed field: " ++ p.1)) ==
          ("ALTER TABLE " ++ n ++ " DROP COLUMN " ++ X ++ ";")) = false :=
        beq_eq_false_iff_ne.mpr (comment_ne_drop _ _ _)
      have hne2 : (("ALTER TABLE " ++ n ++ " DROP COLUMN " ++ p.1 ++ ";") ==
          ("ALTER TABLE " ++ n ++ " DROP COLUMN " ++ X ++ ";")) = false :=
        beq_eq_false_iff_ne.mpr (fun h => hpX (drop_stmt_inj h))
      simp [List.count_cons, List.count_nil, hne1, hne2]

theorem count_chg_part {old_schema new_schema : Schema} {n X : String}
    (hgo : goodSchema old_schema = true) (hgn : goodSchema new_schema = true)
    (p : String × SchemaField) (hp : p ∈ fieldsDict old_schema.fields) :
    List.count ("ALTER TABLE " ++ n ++ " DROP COLUMN " ++ X ++ ";")
      ((chgEntries (fieldsDict new_schema.fields) p).flatMap (perChange n)) = 0 := by
  unfold chgEntries
  rcases hl : (fieldsDict new_schema.fields).lookup p.1 with _ | nf
  · simp
  · have hpm := fieldsDict_mem hp
    have hgp := goodSchema_field hgo hpm.2
    have hgX1 : goodIdent p.1 = true := hpm.1 ▸ hgp.1
    have hnfm := fieldsDict_mem (mem_of_lookup_eq_some hl)
    have hgnf := goodSchema_field hgn hnfm.2
    rw [List.flatMap_append, List.flatMap_append, List.count_append, List.count_append]
    have c1 : List.count ("ALTER TABLE " ++ n ++ " DROP COLUMN " ++ X ++ ";")
        ((if p.2.data_type ≠ nf.data_type
          then ["Changed data type for field " ++ p.1 ++ ": "
                 ++ p.2.data_type ++ " -> " ++ nf.data_type] else []).flatMap
          (perChange n)) = 0 := by
      split
      · simp only [List.flatMap_cons, List.flatMap_nil, List.append_nil]
        rw [perChange_dtype n p.1 p.2.data_type nf.data_type hgX1 hgp.2 hgnf.2]
        have hne1 : (("-- " ++ ("Changed data type for field " ++ p.1 ++ ": "
            ++ p.2.data_type ++ " -> " ++ nf.data_type)) ==
            ("ALTER TABLE " ++ n ++ " DROP COLUMN " ++ X ++ ";")) = false :=
          beq_eq_false_iff_ne.mpr (comment_ne_drop _ _ _)
        have hne2 : (("ALTER TABLE " ++ n ++ " ALTER COLUMN " ++ (p.1 ++ ":")
            ++ " TYPE " ++ nf.data_type ++ ";") ==
            ("ALTER TABLE " ++ n ++ " DROP COLUMN " ++ X ++ ";")) = false :=
          beq_eq_false_iff_ne.mpr (alter_ne_drop (p.1 ++ ":") nf.data_type n X)
        simp [List.count_cons, List.count_nil, hne1, hne2]
      · simp
    have c2 : List.count ("ALTER TABLE " ++ n ++ " DROP COLUMN " ++ X ++ ";")
        ((if (p.2.nullable && !nf.nullable) = true
          then ["Field " ++ p.1 ++ " changed from nullable to non-nullable"]
          else []).flatMap (perChange n)) = 0 := by
      split
      · simp only [List.flatMap_cons, List.flatMap_nil, List.append_nil]
        rw [perChange_nullable n p.1 hgX1]
        have hne1 : (("-- " ++ ("Field " ++ p.1 ++ " changed from nullable to non-nullable")) ==
            ("ALTER TABLE " ++ n ++ " DROP COLUMN " ++ X ++ ";")) = false :=
          beq_eq_false_iff_ne.mpr (comment_ne_drop _ _ _)
        simp [List.count_cons, List.count_nil, hne1]
      · simp
    have c3 : List.count ("ALTER TABLE " ++ n ++ " DROP COLUMN " ++ X ++ ";")
        ((if (!p.2.primary_key && nf.primary_key) = true
          then ["Field " ++ p.1 ++ " changed to primary key"]
          else []).flatMap (perChange n)) = 0 := by
      split
      · simp only [List.flatMap_cons, List.flatMap_nil, List.append_nil]
        rw [perChange_pk n p.1 hgX1]
        have hne1 : (("-- " ++ ("Field " ++ p.1 ++ " changed to primary key")) ==
            ("ALTER TABLE " ++ n ++ " DROP COLUMN " ++ X ++ ";")) = false :=
          beq_eq_false_iff_ne.mpr (comment_ne_drop _ _ _)
        simp [List.count_cons, List.count_nil, hne1]
      · simp
    rw [c1, c2, c3]

/-- C3 counterexample: for the data-type change DECIMAL -> VARCHAR on field
amount, the generated migration does NOT contain the statement the claim
states (ALTER COLUMN amount TYPE VARCHAR;); it contains a statement with a
trailing colon on the column name instead, because _generate_migration takes
token 5 of the message "Changed data type for field amount: DECIMAL ->
VARCHAR", which is "amount:". -/
theorem claim_C3_counterexample :
    ("ALTER TABLE orders ALTER COLUMN amount TYPE VARCHAR;" ∉
        generate_migration "orders" ordersOld ordersVarchar sampleVersion "T0") ∧
    ("ALTER TABLE orders ALTER COLUMN amount: TYPE VARCHAR;" ∈
        generate_migration "orders" ordersOld ordersVarchar sampleVersion "T0") := by
  decide

/-- C3 (corrected): over schemas whose field names and data types are
nonempty lowercase/digit/underscore identifiers, (a) every breaking-change
entry "Removed field: X" yields the statement "ALTER TABLE n DROP COLUMN X;"
exactly once in the generated migration; (b) every entry "Changed data type
for field f: A -> B" yields the statement
"ALTER TABLE n ALTER COLUMN f: TYPE B;" — with a trailing colon on the
column name, unlike the claim's "ALTER COLUMN X TYPE B;"; (c) the
nullable-tightening and primary-key-promotion messages produce their comment
line only, no ALTER statement. -/
theorem claim_C3_amended (n now : String) (old_schema new_schema : Schema)
    (v : SchemaVersion)
    (hgo : goodSchema old_schema = true) (hgn : goodSchema new_schema = true) :
    (∀ X, ("Removed field: " ++ X) ∈ detect_breaking_changes old_schema new_schema →
      List.count ("ALTER TABLE " ++ n ++ " DROP COLUMN " ++ X ++ ";")
        (generate_migration n old_schema new_schema v now) = 1) ∧
    (∀ f A B, goodIdent f = true → goodIdent A = true → goodIdent B = true →
      ("Changed data type for field " ++ f ++ ": " ++ A ++ " -> " ++ B)
        ∈ detect_breaking_changes old_schema new_schema →
      ("ALTER TABLE " ++ n ++ " ALTER COLUMN " ++ (f ++ ":") ++ " TYPE " ++ B ++ ";")
        ∈ generate_migration n old_schema new_schema v now) ∧
    (∀ f, goodIdent f = true →
      perChange n ("Field " ++ f ++ " changed from nullable to non-nullable") =
        ["-- " ++ ("Field " ++ f ++ " changed from nullable to non-nullable")] ∧
      perChange n ("Field " ++ f ++ " changed to primary key") =
        ["-- " ++ ("Field " ++ f ++ " changed to primary key")]) := by
  refine ⟨?_, ?_, ?_⟩
  · intro X hmem
    obtain ⟨p, hp, hshape⟩ := detect_mem_shapes hmem
    have hpm := fieldsDict_mem hp
    have hres : X = p.1 ∧ (fieldsDict new_schema.fields).lookup p.1 = none := by
      rcases hshape with ⟨hnone, heq⟩ | ⟨nf, hlk, h3⟩
      · exact ⟨(str_append_right_inj _ _ _).mp heq, hnone⟩
      · exfalso
        rcases h3 with ⟨_, heq⟩ | ⟨_, _, heq⟩ | ⟨_, _, heq⟩
        · exact removed_ne_dtype X p.1 p.2.data_type nf.data_type heq
        · exact removed_ne_field_msg X " changed from nullable to non-nullable" p.1 heq
        · exact removed_ne_field_msg X " changed to primary key" p.1 heq
    obtain ⟨hX, hnone⟩ := hres
    subst hX
    have hgood : ∀ q ∈ fieldsDict old_schema.fields, goodIdent q.1 = true := by
      intro q hq
      have hqm := fieldsDict_mem hq
      rw [hqm.1]
      exact (goodSchema_field hgo hqm.2).1
    have hE1 : (("-- Migration for " ++ n ++ " to version " ++ v.version) ==
        ("ALTER TABLE " ++ n ++ " DROP COLUMN " ++ p.1 ++ ";")) = false :=
      beq_eq_false_iff_ne.mpr (head_ne_drop
        (str_data_head_append _ (str_data_head_append _ (str_data_head_append _
          (show ("-- Migration for " : String).data.head? = some '-' from rfl))))
        (by decide))
    have hE2 : (("-- Generated at: " ++ now) ==
        ("ALTER TABLE " ++ n ++ " DROP COLUMN " ++ p.1 ++ ";")) = false :=
      beq_eq_false_iff_ne.mpr (head_ne_drop
        (str_data_head_append _
          (show ("-- Generated at: " : String).data.head? = some '-' from rfl))
        (by decide))
    have hE3 : (("-- Description: " ++ v.description) ==
        ("ALTER TABLE " ++ n ++ " DROP COLUMN " ++ p.1 ++ ";")) = false :=
      beq_eq_false_iff_ne.mpr (head_ne_drop
        (str_data_head_append _
          (show ("-- Description: " : String).data.head? = some '-' from rfl))
        (by decide))
    have hE4 : (("" : String) ==
        ("ALTER TABLE " ++ n ++ " DROP COLUMN " ++ p.1 ++ ";")) = false :=
      beq_eq_false_iff_ne.mpr empty_ne_drop
    have hE5 : (("-- End of migration" : String) ==
        ("ALTER TABLE " ++ n ++ " DROP COLUMN " ++ p.1 ++ ";")) = false :=
      beq_eq_false_iff_ne.mpr (head_ne_drop
        (show ("-- End of migration" : String).data.head? = some '-' from rfl)
        (by decide))
    unfold generate_migration
    rw [List.count_append, List.count_append]
    have hdet : detect_breaking_changes old_schema new_schema =
        (fieldsDict old_schema.fields).flatMap
            (remEntry (fieldsDict new_schema.fields)) ++
          (fieldsDict old_schema.fields).flatMap
            (chgEntries (fieldsDict new_schema.fields)) := rfl
    rw [hdet, List.flatMap_append, List.count_append,
        List.flatMap_assoc, List.flatMap_assoc, List.count_flatMap, List.count_flatMap]
    have hcongr1 : ∀ q ∈ fieldsDict old_schema.fields,
        (List.count ("ALTER TABLE " ++ n ++ " DROP COLUMN " ++ p.1 ++ ";") ∘
          fun q => (remEntry (fieldsDict new_schema.fields) q).flatMap (perChange n)) q =
        (fun q : String × SchemaField => if q.1 = p.1 then 1 else 0) q := by
      intro q hq
      exact count_rem_part hnone q (hgood q hq)
    have hcongr2 : ∀ q ∈ fieldsDict old_schema.fields,
        (List.count ("ALTER TABLE " ++ n ++ " DROP COLUMN " ++ p.1 ++ ";") ∘
          fun q => (chgEntries (fieldsDict new_schema.fields) q).flatMap (perChange n)) q =
        (fun _ : String × SchemaField => (0 : Nat)) q := by
      intro q hq
      exact count_chg_part hgo hgn q hq
    rw [List.map_congr_left hcongr1, List.map_congr_left hcongr2]
    rw [sum_indicator_eq_one (fieldsDict_keys_nodup old_schema.fields)
        ⟨p.2, show (p.1, p.2) ∈ fieldsDict old_schema.fields by rw [Prod.mk.eta]; exact hp⟩]
    have hz : (List.map (fun _ : String × SchemaField => (0 : Nat))
        (fieldsDict old_schema.fields)).sum = 0 := by
      apply List.sum_eq_zero
      intro x hx
      rcases List.mem_map.mp hx with ⟨q, _, hq⟩
      exact hq.symm
    rw [hz]
    simp [List.count_cons, List.count_nil, hE1, hE2, hE3, hE4, hE5]
  · intro f A B hf hA hB hmem
    unfold generate_migration
    rw [List.mem_append, List.mem_append]
    left; right
    rw [List.mem_flatMap]
    refine ⟨"Changed data type for field " ++ f ++ ": " ++ A ++ " -> " ++ B, hmem, ?_⟩
    rw [perChange_dtype n f A B hf hA hB]
    simp
  · intro f hf
    exact ⟨perChange_nullable n f hf, perChange_pk n f hf⟩

theorem claim_C3_amended_witness :
    goodSchema goodOld = true ∧ goodSchema goodNew = true ∧
    List.count ("ALTER TABLE " ++ "t" ++ " DROP COLUMN " ++ "note" ++ ";")
      (generate_migration "t" goodOld goodNew sampleVersion "T0") = 1 ∧
    ("ALTER TABLE " ++ "t" ++ " ALTER COLUMN " ++ ("amount" ++ ":")
        ++ " TYPE " ++ "varchar" ++ ";")
      ∈ generate_migration "t" goodOld goodNew sampleVersion "T0" := by
  refine ⟨by decide, by decide, ?_, ?_⟩
  · exact (claim_C3_amended "t" "T0" goodOld goodNew sampleVersion
      (by decide) (by decide)).1 "note" (by decide)
  · exact (claim_C3_amended "t" "T0" goodOld goodNew sampleVersion
      (by decide) (by decide)).2.1 "amount" "decimal" "varchar"
      (by decide) (by decide) (by decide) (by decide)
